import Mathlib

/-
Shallow embedding of the HarAnalyzer repository (src/har_analyzer.py) in Lean 4.
The class HarAnalyzer carries no state beyond the entry list, so every method
is embedded as a function taking the entry list (or the relevant sub-object)
as an explicit argument.  The leading underscore of the Python method names is
dropped (Lean reserves it for holes).  Machine floats of the source are
modelled as exact rationals; the report-generation wall-clock timestamp
(datetime.now) is an impure clock read and is omitted from the summary record.
Strings that the source renders with f-strings are built by concatenation
from the same values.
-/

namespace Har

/-! ## Python-level string and number helpers -/

/-- Zero-padded decimal rendering of a natural number to a given width. -/
def natPad (width : Nat) (n : Nat) : String :=
  let s := toString n
  String.mk (List.replicate (width - s.length) '0') ++ s

/-- Round the fraction n / d (d positive) to the nearest integer, ties to
even: the rounding CPython uses when formatting with a fixed number of
decimals.  (Artifacts of binary floating point at exact ties are not
modelled; no claim depends on them.) -/
def roundHalfEvenInt (n : ℤ) (d : ℕ) : ℤ :=
  let f : ℤ := Int.fdiv n d
  let r2 : ℤ := 2 * (n - f * d)
  if r2 < d then f
  else if (d : ℤ) < r2 then f + 1
  else if f % 2 = 0 then f else f + 1

/-- Model of the Python format spec .Nf applied to a value whose rounded
magnitude is not between -1 and 0 (there Python would print a minus sign on
a zero; the source only formats nonnegative statistics, apart from
pass-through sizes). -/
def fmtFixed (prec : Nat) (q : ℚ) : String :=
  let scaled : ℤ := roundHalfEvenInt (q.num * (10 : ℤ) ^ prec) q.den
  let sign := if scaled < 0 then "-" else ""
  let a := scaled.natAbs
  if prec = 0 then sign ++ toString a
  else sign ++ toString (a / 10 ^ prec) ++ "." ++ natPad prec (a % 10 ^ prec)

/-- Model of str.lower restricted to ASCII letters; HTTP header names are
ASCII, which is the only place the source lower-cases. -/
def asciiLower (s : String) : String :=
  String.mk (s.data.map fun c =>
    if 'A' ≤ c ∧ c ≤ 'Z' then Char.ofNat (c.toNat + 32) else c)

/-- Model of the idiom text[:n] + ('...' if len(text) > n else ''); the
slice is by code points, as in Python. -/
def truncEllipsis (n : Nat) (s : String) : String :=
  String.mk (s.data.take n) ++ (if n < s.length then "..." else "")

/-- Whitespace characters stripped by str.strip (ASCII subset; header values
and MIME types are ASCII). -/
def pyWs (c : Char) : Bool :=
  c = ' ' || c = '\t' || c = '\n' || c = '\r' || c = '\x0b' || c = '\x0c'

/-- Model of str.strip(). -/
def pyStrip (s : String) : String :=
  String.mk (((s.data.dropWhile pyWs).reverse.dropWhile pyWs).reverse)

/-- Model of str.startswith. -/
def pyStartsWith (s pre : String) : Bool :=
  pre.data.isPrefixOf s.data

/-- Lexicographic code point comparison: the ordering CPython uses to compare
strings. -/
def charListLt : List Char → List Char → Bool
  | [], [] => false
  | [], _ :: _ => true
  | _ :: _, [] => false
  | a :: as, b :: bs =>
    if a.toNat < b.toNat then true
    else if b.toNat < a.toNat then false
    else charListLt as bs

def strLtB (a b : String) : Bool := charListLt a.data b.data

/-- Stable insertion of x after every element y with lt y x: the placement a
stable sort gives the originally earlier element x. -/
def insSorted (lt : α → α → Bool) (x : α) : List α → List α
  | [] => [x]
  | y :: ys => if lt y x then y :: insSorted lt x ys else x :: y :: ys

/-- Model of sorted(l, key=...): any two stable sorts under the same strict
comparison agree, so this insertion sort computes exactly what CPython's
stable sort returns.  A descending sort with reverse=True is the stable sort
under the flipped strict comparison. -/
def pySorted (lt : α → α → Bool) (l : List α) : List α :=
  l.foldr (insSorted lt) []

/-! ## Timestamps

Model of datetime.fromisoformat / datetime.isoformat on the profile accepted
by CPython 3.10 and earlier: a zero-padded date YYYY-MM-DD, optionally
followed by a one-character separator and a time HH:MM[:SS[.fff or .ffffff]],
optionally followed by a UTC offset +HH:MM or -HH:MM.  The source always
calls the parser through s.replace('Z', '+00:00') first. -/

structure PyDateTime where
  year : Nat
  month : Nat
  day : Nat
  hour : Nat
  minute : Nat
  second : Nat
  micro : Nat
  /-- UTC offset in minutes; none for a naive datetime. -/
  offMinutes : Option ℤ
deriving DecidableEq, Repr

def digitVal (c : Char) : Option Nat :=
  if c.isDigit then some (c.toNat - 48) else none

def d2 (a b : Char) : Option Nat := do
  let x ← digitVal a
  let y ← digitVal b
  pure (10 * x + y)

def d4 (a b c d : Char) : Option Nat := do
  let x ← d2 a b
  let y ← d2 c d
  pure (100 * x + y)

def isLeap (y : Nat) : Bool :=
  (y % 4 = 0 && y % 100 != 0) || y % 400 = 0

def daysInMonth (y m : Nat) : Nat :=
  if m = 2 then (if isLeap y then 29 else 28)
  else if m = 4 ∨ m = 6 ∨ m = 9 ∨ m = 11 then 30
  else 31

def parseIsoDate : List Char → Option (Nat × Nat × Nat × List Char)
  | y1 :: y2 :: y3 :: y4 :: '-' :: m1 :: m2 :: '-' :: t1 :: t2 :: rest => do
    let y ← d4 y1 y2 y3 y4
    let mo ← d2 m1 m2
    let dd ← d2 t1 t2
    if 1 ≤ y ∧ 1 ≤ mo ∧ mo ≤ 12 ∧ 1 ≤ dd ∧ dd ≤ daysInMonth y mo then
      pure (y, mo, dd, rest)
    else none
  | _ => none

/-- Split a time string at the first + or - sign (the offset marker). -/
def splitAtSign : List Char → List Char × Option (Char × List Char)
  | [] => ([], none)
  | c :: rest =>
    if c = '+' ∨ c = '-' then ([], some (c, rest))
    else
      let (a, b) := splitAtSign rest
      (c :: a, b)

def parseFrac : List Char → Option Nat
  | ['.', a, b, c] => do
    let x ← digitVal a
    let y ← digitVal b
    let z ← digitVal c
    pure ((100 * x + 10 * y + z) * 1000)
  | ['.', a, b, c, d, e, f] => do
    let x ← d2 a b
    let y ← d2 c d
    let z ← d2 e f
    pure (10000 * x + 100 * y + z)
  | _ => none

def parseHMS : List Char → Option (Nat × Nat × Nat × Nat)
  | [h1, h2, ':', m1, m2] => do
    let h ← d2 h1 h2
    let mi ← d2 m1 m2
    if h ≤ 23 ∧ mi ≤ 59 then pure (h, mi, 0, 0) else none
  | h1 :: h2 :: ':' :: m1 :: m2 :: ':' :: s1 :: s2 :: rest => do
    let h ← d2 h1 h2
    let mi ← d2 m1 m2
    let s ← d2 s1 s2
    if h ≤ 23 ∧ mi ≤ 59 ∧ s ≤ 59 then
      match rest with
      | [] => pure (h, mi, s, 0)
      | _ => do
        let f ← parseFrac rest
        pure (h, mi, s, f)
    else none
  | _ => none

def parseOffset : List Char → Option Nat
  | [h1, h2, ':', m1, m2] => do
    let h ← d2 h1 h2
    let mi ← d2 m1 m2
    if h ≤ 23 ∧ mi ≤ 59 then pure (h * 60 + mi) else none
  | _ => none

def pyFromIso (s : String) : Option PyDateTime := do
  let (y, mo, dd, rest) ← parseIsoDate s.data
  match rest with
  | [] => pure ⟨y, mo, dd, 0, 0, 0, 0, none⟩
  | _sep :: timeChars =>
    let (tpart, osign) := splitAtSign timeChars
    let (h, mi, sec, mic) ← parseHMS tpart
    match osign with
    | none => pure ⟨y, mo, dd, h, mi, sec, mic, none⟩
    | some (sgn, oc) => do
      let om ← parseOffset oc
      pure ⟨y, mo, dd, h, mi, sec, mic,
        some (if sgn = '-' then -(om : ℤ) else (om : ℤ))⟩

/-- Model of s.replace('Z', '+00:00'): the pattern is a single character, so
occurrences cannot overlap and the replacement is characterwise. -/
def replaceZ (s : String) : String :=
  String.join (s.data.map fun c => if c = 'Z' then "+00:00" else String.singleton c)

/-- Embedding of datetime.fromisoformat(t.replace('Z', '+00:00')), the only
way the source parses timestamps. -/
def pyParseDT (s : String) : Option PyDateTime :=
  pyFromIso (replaceZ s)

/-- Model of datetime.isoformat (offsets of whole minutes). -/
def isoformatStr (dt : PyDateTime) : String :=
  natPad 4 dt.year ++ "-" ++ natPad 2 dt.month ++ "-" ++ natPad 2 dt.day ++ "T" ++
  natPad 2 dt.hour ++ ":" ++ natPad 2 dt.minute ++ ":" ++ natPad 2 dt.second ++
  (if dt.micro = 0 then "" else "." ++ natPad 6 dt.micro) ++
  (match dt.offMinutes with
   | none => ""
   | some o =>
     (if o < 0 then "-" else "+") ++
       natPad 2 (o.natAbs / 60) ++ ":" ++ natPad 2 (o.natAbs % 60))

/-- Days since the Unix epoch of a proleptic Gregorian date (years here are
always at least 1, so all divisions are on nonnegative values). -/
def daysFromCivil (y m d : ℤ) : ℤ :=
  let y2 := if m ≤ 2 then y - 1 else y
  let era := y2 / 400
  let yoe := y2 - era * 400
  let mp := (m + 9) % 12
  let doy := (153 * mp + 2) / 5 + d - 1
  let doe := yoe * 365 + yoe / 4 - yoe / 100 + doy
  era * 146097 + doe - 719468

/-- Absolute instant in microseconds.  Datetime comparison and subtraction in
CPython compare aware datetimes by absolute instant and naive ones
componentwise; both are captured by this map, reading a naive datetime as
offset zero.  Comparing a naive with an aware datetime raises TypeError in
CPython, which this total map does not reproduce: every statement about the
duplicate detector, the one consumer that compares parsed datetimes, is
therefore guarded by the homogeneity conditions dupHomog and dupNoMixed
below, restricting it to the inputs on which the source has a value. -/
def toMicro (dt : PyDateTime) : ℤ :=
  (daysFromCivil dt.year dt.month dt.day * 86400
      + dt.hour * 3600 + dt.minute * 60 + dt.second) * 1000000
    + dt.micro - (dt.offMinutes.getD 0) * 60 * 1000000

/-! ## JSON

Model of the json library on the fragment the analyzer can meet in practice:
null, booleans, integer numbers, strings with simple escapes, arrays and
objects.  json.dumps is modelled with indent=2 and ensure_ascii=False, as
called by the source. -/

inductive PyJson where
  | null
  | bool (b : Bool)
  | int (n : ℤ)
  | str (s : String)
  | arr (elems : List PyJson)
  | obj (fields : List (String × PyJson))

def jsonWs (l : List Char) : List Char :=
  l.dropWhile fun c => c = ' ' ∨ c = '\t' ∨ c = '\n' ∨ c = '\r'

def parseJsonStr : List Char → Option (String × List Char)
  | [] => none
  | '"' :: rest => some ("", rest)
  | '\\' :: e :: rest => do
    let c ← match e with
      | '"' => some '"'
      | '\\' => some '\\'
      | '/' => some '/'
      | 'n' => some '\n'
      | 't' => some '\t'
      | 'r' => some '\r'
      | 'b' => some (Char.ofNat 8)
      | 'f' => some (Char.ofNat 12)
      | _ => none
    let (s, r2) ← parseJsonStr rest
    pure (String.mk (c :: s.data), r2)
  | c :: rest =>
    if c = '"' ∨ c = '\\' then none
    else do
      let (s, r2) ← parseJsonStr rest
      pure (String.mk (c :: s.data), r2)

def parseJsonInt (l : List Char) : Option (ℤ × List Char) :=
  let (neg, l2) := match l with
    | '-' :: r => (true, r)
    | _ => (false, l)
  let ds := l2.takeWhile Char.isDigit
  if ds = [] then none
  else
    let n : Nat := ds.foldl (fun a c => a * 10 + (c.toNat - 48)) 0
    some ((if neg then -(n : ℤ) else (n : ℤ)), l2.drop ds.length)

mutual

def parseJsonVal : Nat → List Char → Option (PyJson × List Char)
  | 0, _ => none
  | fuel + 1, l =>
    match jsonWs l with
    | 'n' :: 'u' :: 'l' :: 'l' :: r => some (.null, r)
    | 't' :: 'r' :: 'u' :: 'e' :: r => some (.bool true, r)
    | 'f' :: 'a' :: 'l' :: 's' :: 'e' :: r => some (.bool false, r)
    | '"' :: r => do
      let (s, r2) ← parseJsonStr r
      pure (.str s, r2)
    | '[' :: r =>
      (match jsonWs r with
       | ']' :: r2 => some (.arr [], r2)
       | r2 => do
         let (xs, r3) ← parseJsonItems fuel r2
         pure (.arr xs, r3))
    | '\x7b' :: r =>
      (match jsonWs r with
       | '\x7d' :: r2 => some (.obj [], r2)
       | r2 => do
         let (kvs, r3) ← parseJsonMembers fuel r2
         pure (.obj kvs, r3))
    | r => do
      let (n, r2) ← parseJsonInt r
      pure (.int n, r2)

def parseJsonItems : Nat → List Char → Option (List PyJson × List Char)
  | 0, _ => none
  | fuel + 1, l => do
    let (v, r) ← parseJsonVal fuel l
    match jsonWs r with
    | ',' :: r2 => do
      let (vs, r3) ← parseJsonItems fuel r2
      pure (v :: vs, r3)
    | ']' :: r2 => pure ([v], r2)
    | _ => none

def parseJsonMembers : Nat → List Char → Option (List (String × PyJson) × List Char)
  | 0, _ => none
  | fuel + 1, l => do
    match jsonWs l with
    | '"' :: r => do
      let (k, r2) ← parseJsonStr r
      match jsonWs r2 with
      | ':' :: r3 => do
        let (v, r4) ← parseJsonVal fuel r3
        match jsonWs r4 with
        | ',' :: r5 => do
          let (kvs, r6) ← parseJsonMembers fuel r5
          pure ((k, v) :: kvs, r6)
        | '\x7d' :: r5 => pure ([(k, v)], r5)
        | _ => none
      | _ => none
    | _ => none

end

/-- Embedding of json.loads on the modelled fragment. -/
def json_loads (s : String) : Option PyJson :=
  match parseJsonVal (2 * s.length + 2) s.data with
  | some (v, rest) => if jsonWs rest = [] then some v else none
  | none => none

def hexDigit (n : Nat) : Char :=
  if n < 10 then Char.ofNat (48 + n) else Char.ofNat (87 + n)

def jsonEscapeChar (c : Char) : String :=
  if c = '"' then "\\\""
  else if c = '\\' then "\\\\"
  else if c = '\n' then "\\n"
  else if c = '\t' then "\\t"
  else if c = '\r' then "\\r"
  else if c.toNat < 32 then
    "\\u00" ++ String.mk [hexDigit (c.toNat / 16), hexDigit (c.toNat % 16)]
  else String.singleton c

def jsonEscape (s : String) : String :=
  String.join (s.data.map jsonEscapeChar)

def jsonIndent (lvl : Nat) : String :=
  String.mk (List.replicate (2 * lvl) ' ')

mutual

/-- Embedding of json.dumps(v, indent=2, ensure_ascii=False), rendering at a
given indentation level. -/
def dumps2At : PyJson → Nat → String
  | .null, _ => "null"
  | .bool true, _ => "true"
  | .bool false, _ => "false"
  | .int n, _ => toString n
  | .str s, _ => "\"" ++ jsonEscape s ++ "\""
  | .arr [], _ => "[]"
  | .arr (x :: xs), lvl =>
    "[\n" ++ dumps2List (x :: xs) (lvl + 1) ++ "\n" ++ jsonIndent lvl ++ "]"
  | .obj [], _ => "\x7b\x7d"
  | .obj (kv :: kvs), lvl =>
    "\x7b\n" ++ dumps2Obj (kv :: kvs) (lvl + 1) ++ "\n" ++ jsonIndent lvl ++ "\x7d"

def dumps2List : List PyJson → Nat → String
  | [], _ => ""
  | [x], lvl => jsonIndent lvl ++ dumps2At x lvl
  | x :: y :: xs, lvl =>
    jsonIndent lvl ++ dumps2At x lvl ++ ",\n" ++ dumps2List (y :: xs) lvl

def dumps2Obj : List (String × PyJson) → Nat → String
  | [], _ => ""
  | [(k, v)], lvl => jsonIndent lvl ++ "\"" ++ jsonEscape k ++ "\": " ++ dumps2At v lvl
  | (k, v) :: kv :: kvs, lvl =>
    jsonIndent lvl ++ "\"" ++ jsonEscape k ++ "\": " ++ dumps2At v lvl ++ ",\n" ++
      dumps2Obj (kv :: kvs) lvl

end

def json_dumps2 (v : PyJson) : String := dumps2At v 0

/-! ## URL decomposition

Model of urllib.parse.urlparse for the two fields the source reads: netloc
(the authority) and path.  A scheme prefix is recognised when the text before
the first colon is a nonempty run of letters, digits, plus, minus and dots
starting with a letter; the netloc is what follows a double slash up to the
next slash, question mark or hash.  (The params split at a semicolon in the
last path segment is not modelled; no claim inspects paths.) -/

def isSchemeChar (c : Char) : Bool :=
  c.isAlphanum || c = '+' || c = '-' || c = '.'

def splitFirst (c : Char) : List Char → Option (List Char × List Char)
  | [] => none
  | x :: xs =>
    if x = c then some ([], xs)
    else (splitFirst c xs).map fun p => (x :: p.1, p.2)

def stripScheme (url : List Char) : List Char :=
  match splitFirst ':' url with
  | some (bef, aft) =>
    if bef ≠ [] ∧ (bef.headD 'a').isAlpha ∧ bef.all isSchemeChar then aft else url
  | none => url

def notNetlocEnd (c : Char) : Bool :=
  c ≠ '/' && c ≠ '?' && c ≠ '#'

def urlNetloc (url : String) : String :=
  match stripScheme url.data with
  | '/' :: '/' :: r => String.mk (r.takeWhile notNetlocEnd)
  | _ => ""

def urlPath (url : String) : String :=
  let rest := stripScheme url.data
  let afterNet :=
    match rest with
    | '/' :: '/' :: r => r.dropWhile notNetlocEnd
    | r => r
  String.mk (afterNet.takeWhile fun c => c ≠ '?' ∧ c ≠ '#')

/-! ## Document model

Normalized in-memory form of one HAR entry, mirroring exactly the fields
src/har_analyzer.py reads.  Every access in the source goes through
dict.get with a default, so each field here carries that resolved default:
an absent Python key corresponds to the default value below.  Optional
sub-dicts that the source tests for truthiness (postData, content) are
Options, none standing for an absent or empty dict.  The cache object is an
opaque passthrough, modelled as an uninterpreted string. -/

structure Header where
  name : String := ""
  value : String := ""
deriving DecidableEq, Repr

structure Param where
  name : String := ""
  value : String := ""
deriving DecidableEq, Repr

structure PostData where
  mimeType : String := ""
  text : String := ""
  params : List Param := []
deriving DecidableEq, Repr

structure Content where
  size : ℤ := 0
  mimeType : String := ""
  text : String := ""
  encoding : String := ""
deriving DecidableEq, Repr

structure Request where
  method : String := "GET"
  url : String := ""
  headers : List Header := []
  queryString : List Param := []
  postData : Option PostData := none
deriving DecidableEq, Repr

structure Response where
  status : ℤ := 0
  /-- Kept optional because the source reads it with two different defaults:
  an empty string in the request projection and the error-detail record, and
  the word Unknown in the error analyzer. -/
  statusText : Option String := none
  headers : List Header := []
  content : Option Content := none
deriving DecidableEq, Repr

structure Timings where
  dns : ℚ := -1
  connect : ℚ := -1
  ssl : ℚ := -1
  send : ℚ := -1
  wait : ℚ := -1
  receive : ℚ := -1
deriving DecidableEq, Repr

structure Entry where
  request : Request := {}
  response : Response := {}
  timings : Timings := {}
  time : ℚ := 0
  serverIPAddress : String := "N/A"
  startedDateTime : String := ""
  cache : String := ""
deriving DecidableEq, Repr

/-- The access chain e.get('response').get('content').get('size', 0). -/
def contentSize (e : Entry) : ℤ :=
  match e.response.content with
  | some c => c.size
  | none => 0

/-! ## Shared formatting helpers of the analyzer -/

/-- Embedding of _format_size.  The while loop divides by 1024 while the
magnitude is at least 1024 and a larger unit remains; with four units it runs
at most three times and is unrolled here. -/
def format_size (sz : ℚ) : String :=
  if sz = 0 then "0B"
  else
    if sz ≥ 1024 then
      if sz / 1024 ≥ 1024 then
        if sz / 1048576 ≥ 1024 then fmtFixed 1 (sz / 1073741824) ++ "GB"
        else fmtFixed 1 (sz / 1048576) ++ "MB"
      else fmtFixed 1 (sz / 1024) ++ "KB"
    else fmtFixed 1 sz ++ "B"

/-- Insertion into a Python dict rendered as an insertion-ordered association
list: an existing key keeps its position and gets the new value, a new key is
appended. -/
def dictSet (k v : String) : List (String × String) → List (String × String)
  | [] => [(k, v)]
  | (k2, v2) :: rest => if k2 = k then (k, v) :: rest else (k2, v2) :: dictSet k v rest

/-- Embedding of _format_headers: a later duplicate of the same exact-case
name overwrites the earlier value. -/
def format_headers (headers : List Header) : List (String × String) :=
  headers.foldl (fun acc h => dictSet h.name h.value acc) []

/-- Embedding of _format_query_params. -/
def format_query_params (params : List Param) : List (String × String) :=
  params.foldl (fun acc p => dictSet p.name p.value acc) []

/-- The loop-with-break idiom the source uses to look up a header: scan in
list order, return the first whose lower-cased name matches. -/
def findHeader (name : String) : List Header → Option Header
  | [] => none
  | h :: rest => if asciiLower h.name = name then some h else findHeader name rest

/-- Model of v.split(';')[0]: the prefix before the first semicolon. -/
def firstSemiSegment (v : String) : String :=
  String.mk (v.data.takeWhile fun c => c ≠ ';')

/-- Embedding of _get_content_type. -/
def get_content_type (response : Response) : String :=
  match findHeader "content-type" response.headers with
  | some h => pyStrip (firstSemiSegment h.value)
  | none => "unknown"

structure FormattedPostData where
  mime_type : String
  text : String
  full_content : String
  params : List Param
  is_json : Bool
  is_form : Bool
  is_multipart : Bool
deriving DecidableEq, Repr

/-- Embedding of _format_post_data.  The JSON branch requires the MIME type
to be exactly application/json and the text to be truthy; json.loads failure
is the except branch. -/
def format_post_data (postData : Option PostData) : Option FormattedPostData :=
  match postData with
  | none => none
  | some p =>
    let preview :=
      if p.mimeType = "application/json" ∧ p.text ≠ "" then
        match json_loads p.text with
        | some j => truncEllipsis 2000 (json_dumps2 j)
        | none => truncEllipsis 1000 p.text
      else truncEllipsis 1000 p.text
    some {
      mime_type := p.mimeType
      text := preview
      full_content := p.text
      params := p.params
      is_json := p.mimeType = "application/json"
      is_form := p.mimeType = "application/x-www-form-urlencoded"
      is_multipart := pyStartsWith p.mimeType "multipart/" }

structure ResponsePreview where
  size : ℤ
  mime_type : String
  preview : String
  full_content : String
  encoding : String
  is_json : Bool
  is_html : Bool
  is_image : Bool
  is_text : Bool
deriving DecidableEq, Repr

/-- Embedding of _get_response_preview.  Here the JSON branch tests
mime_type.startswith('application/json'); inside the try, empty text yields
an empty preview, and a loads failure falls to the except branch, which
truncates the raw text (or yields the empty string for empty text). -/
def get_response_preview (content : Option Content) : Option ResponsePreview :=
  match content with
  | none => none
  | some c =>
    let preview :=
      if pyStartsWith c.mimeType "application/json" then
        if c.text ≠ "" then
          match json_loads c.text with
          | some j => truncEllipsis 2000 (json_dumps2 j)
          | none => if c.text ≠ "" then truncEllipsis 1000 c.text else ""
        else ""
      else if c.text ≠ "" then truncEllipsis 1000 c.text else ""
    some {
      size := c.size
      mime_type := c.mimeType
      preview := preview
      full_content := c.text
      encoding := c.encoding
      is_json := pyStartsWith c.mimeType "application/json"
      is_html := pyStartsWith c.mimeType "text/html"
      is_image := pyStartsWith c.mimeType "image/"
      is_text := pyStartsWith c.mimeType "text/" }

structure ErrorDetails where
  status_code : ℤ
  status_text : String
  category : String
  url : String
  method : String
deriving DecidableEq, Repr

/-- The fixed status-to-category table of _get_error_details. -/
def error_categories (status : ℤ) : Option String :=
  if status = 400 then some "客户端错误 - 请求格式错误"
  else if status = 401 then some "未授权 - 需要身份验证"
  else if status = 403 then some "禁止访问 - 权限不足"
  else if status = 404 then some "资源未找到"
  else if status = 405 then some "方法不允许"
  else if status = 408 then some "请求超时"
  else if status = 429 then some "请求过于频繁"
  else if status = 500 then some "服务器内部错误"
  else if status = 502 then some "网关错误"
  else if status = 503 then some "服务不可用"
  else if status = 504 then some "网关超时"
  else none

/-- Embedding of _get_error_details. -/
def get_error_details (e : Entry) : ErrorDetails :=
  { status_code := e.response.status
    status_text := e.response.statusText.getD ""
    category := (error_categories e.response.status).getD "未知错误"
    url := e.request.url
    method := e.request.method }

/-! ## Summary computer -/

structure Summary where
  total_requests : Nat
  successful_requests : Nat
  failed_requests : Nat
  success_rate : String
  avg_response_time : String
  total_size : String
  total_time : String
deriving DecidableEq, Repr

/-- Embedding of _get_summary (the wall-clock analysis_time field of the
source is an impure clock read and is omitted). -/
def get_summary (entries : List Entry) : Summary :=
  let total_requests := entries.length
  let successful_requests :=
    (entries.filter fun e => 200 ≤ e.response.status ∧ e.response.status < 400).length
  let failed_requests := total_requests - successful_requests
  let total_size : ℤ := (entries.map contentSize).sum
  let times : List ℚ := entries.map Entry.time
  let avg_response_time : ℚ := if times ≠ [] then times.sum / times.length else 0
  let total_time : ℚ := times.sum
  { total_requests := total_requests
    successful_requests := successful_requests
    failed_requests := failed_requests
    success_rate :=
      if total_requests > 0 then
        fmtFixed 1 ((successful_requests : ℚ) / total_requests * 100) ++ "%"
      else "0%"
    avg_response_time := fmtFixed 2 avg_response_time ++ "ms"
    total_size := format_size (total_size : ℚ)
    total_time := fmtFixed 2 total_time ++ "ms" }

/-! ## Request detail projector -/

structure RequestInfo where
  index : Nat
  method : String
  url : String
  domain : String
  path : String
  status_code : ℤ
  status_text : String
  is_error : Bool
  server_ip : String
  content_size : String
  content_size_bytes : ℤ
  total_time : String
  total_time_ms : ℚ
  start_time : String
  content_type : String
  request_headers : List (String × String)
  response_headers : List (String × String)
  query_params : List (String × String)
  post_data : Option FormattedPostData
  response_content : Option ResponsePreview
  timings : Timings
  cache : String
  error_details : Option ErrorDetails
deriving DecidableEq, Repr

/-- Embedding of _analyze_requests. -/
def analyze_requests (entries : List Entry) : List RequestInfo :=
  entries.enum.map fun p =>
    let i := p.1
    let e := p.2
    let status_code := e.response.status
    let is_error : Bool := decide (status_code ≥ 400 ∨ status_code = 0)
    { index := i + 1
      method := e.request.method
      url := e.request.url
      domain := urlNetloc e.request.url
      path := urlPath e.request.url
      status_code := status_code
      status_text := e.response.statusText.getD ""
      is_error := is_error
      server_ip := e.serverIPAddress
      content_size := format_size (contentSize e : ℚ)
      content_size_bytes := contentSize e
      total_time := fmtFixed 2 e.time ++ "ms"
      total_time_ms := e.time
      start_time := e.startedDateTime
      content_type := get_content_type e.response
      request_headers := format_headers e.request.headers
      response_headers := format_headers e.response.headers
      query_params := format_query_params e.request.queryString
      post_data := format_post_data e.request.postData
      response_content := get_response_preview e.response.content
      timings := e.timings
      cache := e.cache
      error_details := if is_error then some (get_error_details e) else none }

/-! ## Performance analyzer -/

structure SlimRequest where
  url : String
  method : String
  time : String
  status : ℤ
deriving DecidableEq, Repr

structure LargeRequest where
  url : String
  method : String
  size : String
  status : ℤ
deriving DecidableEq, Repr

/-- Embedding of _get_slowest_requests: stable sort by duration descending,
take the first limit entries. -/
def get_slowest_requests (entries : List Entry) (limit : Nat) : List SlimRequest :=
  ((pySorted (fun a b => decide (b.time < a.time)) entries).take limit).map fun e =>
    { url := e.request.url
      method := e.request.method
      time := fmtFixed 2 e.time ++ "ms"
      status := e.response.status }

/-- Embedding of _get_largest_requests: stable sort by response content size
descending, take the first limit entries. -/
def get_largest_requests (entries : List Entry) (limit : Nat) : List LargeRequest :=
  ((pySorted (fun a b => decide (contentSize b < contentSize a)) entries).take limit).map fun e =>
    { url := e.request.url
      method := e.request.method
      size := format_size (contentSize e : ℚ)
      status := e.response.status }

structure PerformanceReport where
  avg_response_time : String
  min_response_time : String
  max_response_time : String
  total_transfer_size : String
  avg_transfer_size : String
  slowest_requests : List SlimRequest
  largest_requests : List LargeRequest
deriving DecidableEq, Repr

/-- Embedding of _analyze_performance; the early return on an empty document
is the none case. -/
def analyze_performance (entries : List Entry) : Option PerformanceReport :=
  match entries with
  | [] => none
  | e0 :: rest =>
    let entries := e0 :: rest
    let times : List ℚ := entries.map Entry.time
    let sizes : List ℤ := entries.map contentSize
    let tmin : ℚ := times.foldl (fun a b => if b < a then b else a) e0.time
    let tmax : ℚ := times.foldl (fun a b => if a < b then b else a) e0.time
    some
      { avg_response_time := fmtFixed 2 (times.sum / times.length) ++ "ms"
        min_response_time := fmtFixed 2 tmin ++ "ms"
        max_response_time := fmtFixed 2 tmax ++ "ms"
        total_transfer_size := format_size (sizes.sum : ℚ)
        avg_transfer_size :=
          if sizes ≠ [] then format_size ((sizes.sum : ℚ) / sizes.length) else "0B"
        slowest_requests := get_slowest_requests entries 5
        largest_requests := get_largest_requests entries 5 }

/-! ## Error knowledge base and error analyzer -/

structure WhitelistInfo where
  ip : String
  domain : String
  whitelist_suggestions : List String
deriving DecidableEq, Repr

structure ErrorAnalysis where
  category : String
  title : String
  description : String
  possible_causes : List String
  solutions : List String
  whitelist_info : Option WhitelistInfo := none
deriving DecidableEq, Repr

/-- The fixed error_info catalog of _get_error_analysis, with the f-string
interpolation of server IP and domain. -/
def catalogRecord (status : ℤ) (server_ip domain : String) : Option ErrorAnalysis :=
  if status = 400 then some
    { category := "客户端错误"
      title := "请求格式错误"
      description := "客户端发送的请求格式不正确，服务器无法理解。"
      possible_causes := ["请求参数格式错误", "请求头信息不完整", "JSON格式错误", "请求体过大"]
      solutions := ["检查请求参数格式是否正确", "验证请求头信息是否完整", "检查JSON格式是否有效",
        "确认请求体大小是否超过限制"] }
  else if status = 401 then some
    { category := "认证错误"
      title := "未授权访问"
      description := "请求需要用户身份验证，但当前请求未提供有效的认证信息。"
      possible_causes := ["未提供认证信息", "认证信息过期", "认证信息格式错误", "用户名或密码错误"]
      solutions := ["重新登录获取新的认证信息", "检查Token是否过期", "确认用户名密码是否正确",
        "联系管理员检查账户状态"] }
  else if status = 403 then some
    { category := "权限错误"
      title := "禁止访问"
      description := "服务器理解请求，但拒绝执行，通常是权限不足。"
      possible_causes := ["用户权限不足、登录失效", "IP地址被限制", "访问频率过高"]
      solutions := ["联系邮箱管理员申请相应权限", "将IP地址 " ++ server_ip ++ " 添加到白名单",
        "将域名 " ++ domain ++ " 添加到防火墙白名单", "降低访问频率", "检查API调用限制"] }
  else if status = 404 then some
    { category := "资源不存在"
      title := "页面或资源未找到"
      description := "服务器无法找到请求的资源。"
      possible_causes := ["URL地址错误", "资源已被移动或删除", "网络连接问题", "域名解析失败"]
      solutions := ["检查URL地址是否正确", "确认域名 " ++ domain ++ " 是否可访问",
        "将IP地址 " ++ server_ip ++ " 添加到网络白名单",
        "将域名 " ++ domain ++ " 添加到防火墙白名单", "联系网络管理员检查网络连接",
        "检查DNS解析是否正常"] }
  else if status = 405 then some
    { category := "方法错误"
      title := "不允许的请求方法"
      description := "请求的HTTP方法不被资源支持。"
      possible_causes := ["使用了错误的HTTP方法", "服务器不支持该方法", "API接口配置错误"]
      solutions := ["检查API文档确认正确的HTTP方法", "联系开发人员确认接口配置", "尝试使用其他HTTP方法"] }
  else if status = 408 then some
    { category := "超时错误"
      title := "请求超时"
      description := "服务器等待请求的时间过长，连接已断开。"
      possible_causes := ["网络连接不稳定", "服务器响应慢", "请求处理时间过长", "防火墙阻挡"]
      solutions := ["检查网络连接稳定性", "确认能否正常访问 " ++ domain,
        "将IP地址 " ++ server_ip ++ " 添加到网络白名单",
        "将域名 " ++ domain ++ " 添加到防火墙白名单", "增加请求超时时间",
        "联系网络管理员检查网络配置"] }
  else if status = 429 then some
    { category := "限流错误"
      title := "请求过于频繁"
      description := "在给定时间内发送了太多请求。"
      possible_causes := ["API调用频率过高", "触发了速率限制", "并发请求过多"]
      solutions := ["降低API调用频率", "实现请求队列控制", "增加请求间隔时间", "联系服务提供商提高限额"] }
  else if status = 500 then some
    { category := "服务器错误"
      title := "内部服务器错误"
      description := "服务器遇到未知错误，无法完成请求。"
      possible_causes := ["服务器代码错误", "服务器配置问题", "数据库连接失败", "服务器资源不足"]
      solutions := ["联系服务提供商报告错误", "稍后重试请求", "检查服务器状态", "联系技术支持"] }
  else if status = 502 then some
    { category := "网关错误"
      title := "网关错误"
      description := "作为网关或代理的服务器从上游服务器接收到无效响应。"
      possible_causes := ["上游服务器故障", "网关配置错误", "网络连接问题", "负载均衡器问题"]
      solutions := ["检查是否能直接访问 " ++ domain,
        "将IP地址 " ++ server_ip ++ " 添加到网络白名单",
        "将域名 " ++ domain ++ " 添加到防火墙白名单", "联系网络管理员检查网关配置", "稍后重试请求"] }
  else if status = 503 then some
    { category := "服务不可用"
      title := "服务暂时不可用"
      description := "服务器当前无法处理请求，通常是临时状态。"
      possible_causes := ["服务器维护中", "服务器过载", "服务临时停止", "网络连接问题"]
      solutions := ["稍后重试请求", "确认 " ++ domain ++ " 服务是否正常",
        "检查是否能访问IP地址 " ++ server_ip,
        "将域名 " ++ domain ++ " 添加到防火墙白名单", "联系服务提供商确认服务状态"] }
  else if status = 504 then some
    { category := "网关超时"
      title := "网关超时"
      description := "作为网关或代理的服务器没有及时从上游服务器收到响应。"
      possible_causes := ["上游服务器响应慢", "网络延迟高", "防火墙阻挡", "服务器过载"]
      solutions := ["检查网络到 " ++ domain ++ " 的连通性",
        "将IP地址 " ++ server_ip ++ " 添加到网络白名单",
        "将域名 " ++ domain ++ " 添加到防火墙白名单", "增加超时时间设置",
        "联系网络管理员检查网络配置"] }
  else none

/-- Embedding of _get_error_analysis.  Status 0 returns early (before the
whitelist block); otherwise the catalog record, or the generic unknown-error
record, gets a whitelist_info block when a concrete server IP is known. -/
def get_error_analysis (status : ℤ) (url : String) (server_ip domain : String) : ErrorAnalysis :=
  if status = 0 then
    { category := "网络连接错误"
      title := "无法连接到服务器"
      description := "浏览器无法与服务器建立连接。"
      possible_causes := ["网络连接断开", "DNS解析失败", "防火墙阻挡"]
      solutions := ["检查网络连接", "确认域名 " ++ domain ++ " 是否可解析",
        "将IP地址 " ++ server_ip ++ " 添加到网络白名单",
        "将域名 " ++ domain ++ " 添加到防火墙白名单", "联系网络管理员检查网络配置",
        "尝试使用其他网络连接"] }
  else
    let error_data := (catalogRecord status server_ip domain).getD
      { category := "未知错误"
        title := "HTTP " ++ toString status ++ " 错误"
        description := "遇到未知的HTTP状态码。"
        possible_causes := ["服务器返回了非标准状态码"]
        solutions := ["联系开发人员检查具体错误", "确认 " ++ domain ++ " 服务是否正常",
          "检查IP地址 " ++ server_ip ++ " 是否可访问"] }
    if server_ip ≠ "N/A" then
      { error_data with
          whitelist_info := some
            { ip := server_ip
              domain := domain
              whitelist_suggestions := ["防火墙白名单: " ++ domain, "IP白名单: " ++ server_ip,
                "端口: 443 (HTTPS) 或 80 (HTTP)"] } }
    else error_data

structure ErrorDetail where
  url : String
  domain : String
  server_ip : String
  method : String
  time : String
  status : ℤ
  status_text : String
  index : Nat
  error_analysis : ErrorAnalysis
  response_headers : List (String × String)
  response_content : Option ResponsePreview
  timings : Timings
deriving DecidableEq, Repr

/-- The error filter of _analyze_errors (and of the several detectors that
treat status 0 as a failure). -/
def isFailureB (e : Entry) : Bool :=
  decide (e.response.status ≥ 400 ∨ e.response.status = 0)

/-- One iteration of the _analyze_errors loop: the record built for the i-th
failure (0-based position in the failure-only subsequence), including the
re-derivation of the original index by first match on url and status. -/
def mkErrorDetail (entries : List Entry) (i : Nat) (e : Entry) : ErrorDetail :=
  let status := e.response.status
  let status_text := e.response.statusText.getD "Unknown"
  let url := e.request.url
  let original_index : Nat :=
    match entries.findIdx? (fun o => o.request.url = url ∧ o.response.status = status) with
    | some j => j + 1
    | none => i + 1
  { url := url
    domain := urlNetloc url
    server_ip := e.serverIPAddress
    method := e.request.method
    time := e.startedDateTime
    status := status
    status_text := status_text
    index := original_index
    error_analysis := get_error_analysis status url e.serverIPAddress (urlNetloc url)
    response_headers := format_headers e.response.headers
    response_content := get_response_preview e.response.content
    timings := e.timings }

/-- Insertion into a Python dict of lists, appending the value to an existing
key in place or appending a new singleton group at the end. -/
def upsertApp (k : String) (v : α) : List (String × List α) → List (String × List α)
  | [] => [(k, [v])]
  | (k2, vs) :: rest =>
    if k2 = k then (k2, vs ++ [v]) :: rest else (k2, vs) :: upsertApp k v rest

structure ErrorsReport where
  total_errors : Nat
  error_rate : String
  error_breakdown : List (String × List ErrorDetail)
  detailed_errors : List ErrorDetail
deriving DecidableEq, Repr

/-- Embedding of _analyze_errors. -/
def analyze_errors (entries : List Entry) : ErrorsReport :=
  let error_entries := entries.filter isFailureB
  let details := error_entries.enum.map fun p => mkErrorDetail entries p.1 p.2
  { total_errors := error_entries.length
    error_rate :=
      if entries ≠ [] then
        fmtFixed 1 ((error_entries.length : ℚ) / entries.length * 100) ++ "%"
      else "0%"
    error_breakdown :=
      details.foldl (fun acc d => upsertApp (toString d.status ++ " " ++ d.status_text) d acc) []
    detailed_errors := details }

/-! ## Anomaly detector: redirect loops -/

structure RedirectHop where
  index : Nat
  from_url : String
  to_url : String
  status : ℤ
  time : String
deriving DecidableEq, Repr

/-- The grouping pass of _detect_redirect_loops: 3xx entries carrying a
nonempty Location header (first case-insensitive match), grouped by
originating URL in insertion order. -/
def redirectChains (entries : List Entry) : List (String × List RedirectHop) :=
  entries.enum.foldl
    (fun acc p =>
      let i := p.1
      let e := p.2
      let status := e.response.status
      let url := e.request.url
      if 300 ≤ status ∧ status < 400 then
        match findHeader "location" e.response.headers with
        | some h =>
          if h.value ≠ "" then
            upsertApp url
              { index := i + 1, from_url := url, to_url := h.value
                status := status, time := e.startedDateTime } acc
          else acc
        | none => acc
      else acc)
    []

/-- The loop scan of _detect_redirect_loops: walking the chain with the set
of already seen from URLs, report a loop at the first hop whose target was
seen. -/
def detectLoopFrom : List RedirectHop → List String → Bool
  | [], _ => false
  | h :: rest, visited =>
    if h.to_url ∈ visited then true
    else detectLoopFrom rest (h.from_url :: visited)

structure RedirectFinding where
  type : String
  severity : String
  url : String
  chain_length : Nat
  chain : List RedirectHop
  description : String
  suggestion : String
deriving DecidableEq, Repr

/-- The findings _detect_redirect_loops appends for one URL group: the break
after the first detected loop makes at most one finding per group. -/
def redirectGroupFindings (url : String) (chain : List RedirectHop) : List RedirectFinding :=
  if chain.length > 3 then
    if detectLoopFrom chain [] then
      [{ type := "重定向循环", severity := "高", url := url, chain_length := chain.length
         chain := chain
         description := "检测到可能的重定向循环，重定向次数: " ++ toString chain.length
         suggestion := "检查服务器重定向配置，避免循环重定向" }]
    else []
  else if chain.length > 1 then
    [{ type := "频繁重定向", severity := "中", url := url, chain_length := chain.length
       chain := chain
       description := "检测到频繁重定向，重定向次数: " ++ toString chain.length
       suggestion := "考虑优化重定向链，减少不必要的重定向" }]
  else []

/-- Embedding of _detect_redirect_loops. -/
def detect_redirect_loops (entries : List Entry) : List RedirectFinding :=
  (redirectChains entries).flatMap fun p => redirectGroupFindings p.1 p.2

/-! ## Anomaly detector: duplicate requests -/

structure DupOccurrence where
  index : Nat
  url : String
  method : String
  time : String
  status : ℤ
  duration : ℚ
deriving DecidableEq, Repr

/-- The grouping pass of _detect_duplicate_requests, keyed by method:url. -/
def dupGroups (entries : List Entry) : List (String × List DupOccurrence) :=
  entries.enum.foldl
    (fun acc p =>
      let i := p.1
      let e := p.2
      let url := e.request.url
      let method := e.request.method
      upsertApp (method ++ ":" ++ url)
        { index := i + 1, url := url, method := method, time := e.startedDateTime
          status := e.response.status, duration := e.time } acc)
    []

/-- A duplicate-request finding.  The two _seconds fields record the float
values from which the source renders the two strings and derives the
severity. -/
structure DupFinding where
  type : String
  severity : String
  url : String
  method : String
  count : Nat
  time_span : String
  avg_interval : String
  time_span_seconds : ℚ
  avg_interval_seconds : ℚ
  requests : List DupOccurrence
  description : String
  suggestion : String
deriving DecidableEq, Repr

/-- The start times of a group that datetime.fromisoformat parses. -/
def dupParsedTimes (rs : List DupOccurrence) : List PyDateTime :=
  rs.filterMap fun r => pyParseDT r.time

/-- The parsed start times as absolute instants in microseconds. -/
def dupMicros (rs : List DupOccurrence) : List ℤ :=
  (dupParsedTimes rs).map toMicro

/-- The span (max(times) - min(times)).total_seconds() of the source, over
the parsed times only.  The max and min calls sit outside the try/except
that guards fromisoformat, so on a group mixing naive and aware parsed
times the source raises TypeError instead of producing a value; this total
embedding is faithful only on homogeneous groups (dupHomog), and the claim
about the detector is stated under that guard. -/
def dupTimeSpan (rs : List DupOccurrence) : ℚ :=
  ((((dupMicros rs).foldl max ((dupMicros rs).headD 0)
      - (dupMicros rs).foldl min ((dupMicros rs).headD 0)) : ℤ) : ℚ) / 1000000

/-- The group's parsed start times are mutually comparable in CPython: all
naive or all offset-aware.  On a mixed group max(times) raises TypeError. -/
def dupHomog (rs : List DupOccurrence) : Bool :=
  ((dupParsedTimes rs).all fun t => t.offMinutes.isNone)
  || ((dupParsedTimes rs).all fun t => t.offMinutes.isSome)

/-- No candidate group of the document mixes naive and offset-aware parsed
start times.  Groups of at most three occurrences are never parsed, and a
mixed group necessarily has at least two parsed times, so this is exactly
the condition under which the source's detector returns instead of raising
TypeError at max(times). -/
def dupNoMixed (entries : List Entry) : Bool :=
  (dupGroups entries).all fun p => decide (p.2.length ≤ 3) || dupHomog p.2

/-- The average interval of the source: the span divided by the number of
successfully parsed times minus one. -/
def dupAvgInterval (rs : List DupOccurrence) : ℚ :=
  dupTimeSpan rs / (((dupParsedTimes rs).length - 1 : ℕ) : ℚ)

/-- The per-group body of the _detect_duplicate_requests loop: groups of more
than three occurrences with at least two parseable start times produce one
finding. -/
def dupGroupFinding (rs : List DupOccurrence) : Option DupFinding :=
  match rs with
  | [] => none
  | r0 :: _ =>
    if rs.length > 3 then
      if (dupParsedTimes rs).length > 1 then
        some
          { type := "重复请求"
            severity :=
              if dupAvgInterval rs < 1 then "高"
              else if dupAvgInterval rs < 10 then "中" else "低"
            url := r0.url, method := r0.method, count := rs.length
            time_span := fmtFixed 1 (dupTimeSpan rs) ++ "秒"
            avg_interval := fmtFixed 1 (dupAvgInterval rs) ++ "秒"
            time_span_seconds := dupTimeSpan rs
            avg_interval_seconds := dupAvgInterval rs
            requests := rs
            description := "相同请求重复 " ++ toString rs.length ++ " 次，平均间隔 " ++
              fmtFixed 1 (dupAvgInterval rs) ++ " 秒"
            suggestion := "检查是否存在重复提交、轮询过频或缓存失效等问题" }
      else none
    else none

/-- Embedding of _detect_duplicate_requests: per-group findings, stable
sorted by occurrence count descending. -/
def detect_duplicate_requests (entries : List Entry) : List DupFinding :=
  pySorted (fun a b => decide (b.count < a.count))
    ((dupGroups entries).filterMap fun p => dupGroupFinding p.2)

/-! ## Anomaly detector: suspicious patterns -/

structure LargeResponseRec where
  index : Nat
  url : String
  size : String
  size_bytes : ℤ
deriving DecidableEq, Repr

structure SlowRequestRec where
  index : Nat
  url : String
  duration : String
  duration_ms : ℚ
deriving DecidableEq, Repr

structure SuspFinding where
  type : String
  severity : String
  description : String
  count : Option Nat := none
  total : Option Nat := none
  responses : List LargeResponseRec := []
  requests : List SlowRequestRec := []
  suggestion : String
deriving DecidableEq, Repr

/-- The first block of _detect_suspicious_patterns: the high-error-rate
check.  It counts only entries with status at least 400 (status 0 entries
are not counted here, unlike in _analyze_errors); the float literal 0.3 is
modelled by the exact rational. -/
def suspErrorCount (entries : List Entry) : Nat :=
  (entries.filter fun e => e.response.status ≥ 400).length

def suspHighRateFindings (entries : List Entry) : List SuspFinding :=
  if entries.length > 0 ∧ (suspErrorCount entries : ℚ) / entries.length > 0.3 then
    [{ type := "高错误率", severity := "高"
       description := "错误请求占比过高: " ++
         fmtFixed 1 ((suspErrorCount entries : ℚ) / entries.length * 100) ++ "%"
       count := some (suspErrorCount entries), total := some entries.length
       suggestion := "检查网络连接、服务器状态或认证配置" }]
  else []

/-- The oversized responses the second block collects. -/
def largeResponsesList (entries : List Entry) : List LargeResponseRec :=
  entries.enum.filterMap fun p =>
    if contentSize p.2 > 10 * 1024 * 1024 then
      some { index := p.1 + 1, url := p.2.request.url
             size := format_size (contentSize p.2 : ℚ), size_bytes := contentSize p.2 }
    else none

/-- The second block of _detect_suspicious_patterns: responses over 10 MiB. -/
def suspLargeFindings (entries : List Entry) : List SuspFinding :=
  if largeResponsesList entries ≠ [] then
    [{ type := "异常大响应", severity := "中"
       description := "检测到 " ++ toString (largeResponsesList entries).length ++ " 个超大响应文件"
       responses := largeResponsesList entries
       suggestion := "检查是否需要分页加载或压缩响应内容" }]
  else []

/-- The slow requests the third block collects. -/
def slowRequestsList (entries : List Entry) : List SlowRequestRec :=
  entries.enum.filterMap fun p =>
    if p.2.time > 30000 then
      some { index := p.1 + 1, url := p.2.request.url
             duration := fmtFixed 0 p.2.time ++ "ms", duration_ms := p.2.time }
    else none

/-- The third block of _detect_suspicious_patterns: durations over 30000 ms. -/
def suspSlowFindings (entries : List Entry) : List SuspFinding :=
  if slowRequestsList entries ≠ [] then
    [{ type := "超时请求", severity := "中"
       description := "检测到 " ++ toString (slowRequestsList entries).length ++ " 个超时请求"
       requests := slowRequestsList entries
       suggestion := "检查网络连接、服务器性能或增加请求超时时间" }]
  else []

/-- Embedding of _detect_suspicious_patterns: the three blocks append their
findings to one list in order. -/
def detect_suspicious_patterns (entries : List Entry) : List SuspFinding :=
  suspHighRateFindings entries ++ suspLargeFindings entries ++ suspSlowFindings entries

/-! ## Anomaly detector: performance issues -/

/-- Rendering of str applied to a float, used only inside finding strings no
claim inspects; the exact float repr algorithm is not modelled. -/
def ratStr (q : ℚ) : String :=
  if q.den = 1 then toString q.num ++ ".0"
  else toString q.num ++ "/" ++ toString q.den

/-- One offending entry of a timing finding; the source names the third key
dns_time, connect_time or ssl_time depending on the issue type. -/
structure PerfOffender where
  index : Nat
  url : String
  time_str : String
deriving DecidableEq, Repr

structure PerfIssueFinding where
  type : String
  severity : String
  description : String
  requests : List PerfOffender
  suggestion : String
deriving DecidableEq, Repr

/-- Embedding of _detect_performance_issues. -/
def detect_performance_issues (entries : List Entry) : List PerfIssueFinding :=
  if entries.isEmpty then []
  else
    let dns_issues := entries.enum.filterMap fun p =>
      if p.2.timings.dns > 1000 then
        some { index := p.1 + 1, url := p.2.request.url
               time_str := ratStr p.2.timings.dns ++ "ms" }
      else (none : Option PerfOffender)
    let dnsF :=
      if dns_issues ≠ [] then
        [{ type := "DNS解析缓慢", severity := "中"
           description := "检测到 " ++ toString dns_issues.length ++ " 个DNS解析缓慢的请求"
           requests := dns_issues
           suggestion := "检查DNS服务器配置，考虑使用更快的DNS服务器" }]
      else []
    let connect_issues := entries.enum.filterMap fun p =>
      if p.2.timings.connect > 3000 then
        some { index := p.1 + 1, url := p.2.request.url
               time_str := ratStr p.2.timings.connect ++ "ms" }
      else (none : Option PerfOffender)
    let connectF :=
      if connect_issues ≠ [] then
        [{ type := "连接建立缓慢", severity := "高"
           description := "检测到 " ++ toString connect_issues.length ++ " 个连接建立缓慢的请求"
           requests := connect_issues
           suggestion := "检查网络连接质量，可能存在防火墙阻挡或网络不稳定" }]
      else []
    let ssl_issues := entries.enum.filterMap fun p =>
      if p.2.timings.ssl > 2000 then
        some { index := p.1 + 1, url := p.2.request.url
               time_str := ratStr p.2.timings.ssl ++ "ms" }
      else (none : Option PerfOffender)
    let sslF :=
      if ssl_issues ≠ [] then
        [{ type := "SSL握手缓慢", severity := "中"
           description := "检测到 " ++ toString ssl_issues.length ++ " 个SSL握手缓慢的请求"
           requests := ssl_issues
           suggestion := "检查SSL证书配置或考虑优化SSL握手过程" }]
      else []
    dnsF ++ connectF ++ sslF

/-! ## Anomaly detector: security concerns -/

structure HttpOffender where
  index : Nat
  url : String
deriving DecidableEq, Repr

structure AuthOffender where
  index : Nat
  url : String
  status : ℤ
  method : String
deriving DecidableEq, Repr

structure UaOffender where
  index : Nat
  url : String
  user_agent : String
deriving DecidableEq, Repr

/-- A security finding.  The source stores each offender list under one
requests key; the three lists are split by payload type here, with at most
one of them nonempty per finding. -/
structure SecFinding where
  type : String
  severity : String
  description : String
  http_requests : List HttpOffender := []
  auth_requests : List AuthOffender := []
  ua_requests : List UaOffender := []
  total_count : Option Nat := none
  suggestion : String
deriving DecidableEq, Repr

/-- Embedding of _detect_security_concerns.  The User-Agent scan looks only
at the first case-insensitive User-Agent header of each request and flags it
when its value is empty or shorter than 20 characters; a request with no
User-Agent header at all is never flagged. -/
def detect_security_concerns (entries : List Entry) : List SecFinding :=
  let http_requests := entries.enum.filterMap fun p =>
    if pyStartsWith p.2.request.url "http://" then
      some { index := p.1 + 1, url := p.2.request.url }
    else (none : Option HttpOffender)
  let httpF :=
    if http_requests ≠ [] then
      [{ type := "不安全HTTP连接", severity := "中"
         description := "检测到 " ++ toString http_requests.length ++ " 个HTTP请求（建议使用HTTPS）"
         http_requests := http_requests.take 10
         total_count := some http_requests.length
         suggestion := "建议所有请求都使用HTTPS加密连接，特别是涉及敏感数据的请求" }]
    else []
  let auth_failures := entries.enum.filterMap fun p =>
    if p.2.response.status = 401 ∨ p.2.response.status = 403 then
      some { index := p.1 + 1, url := p.2.request.url
             status := p.2.response.status, method := p.2.request.method }
    else (none : Option AuthOffender)
  let authF :=
    if auth_failures.length > 5 then
      [{ type := "频繁认证失败", severity := "高"
         description := "检测到 " ++ toString auth_failures.length ++ " 个认证失败请求"
         auth_requests := auth_failures
         suggestion := "检查认证配置，可能存在密码错误、权限不足或会话过期等问题" }]
    else []
  let suspicious_ua := entries.enum.filterMap fun p =>
    match findHeader "user-agent" p.2.request.headers with
    | some h =>
      if h.value = "" ∨ h.value.length < 20 then
        some { index := p.1 + 1, url := p.2.request.url
               user_agent := if h.value = "" then "空" else h.value }
      else (none : Option UaOffender)
    | none => none
  let uaF :=
    if suspicious_ua ≠ [] then
      [{ type := "可疑User-Agent", severity := "低"
         description := "检测到 " ++ toString suspicious_ua.length ++ " 个可疑的User-Agent"
         ua_requests := suspicious_ua.take 5
         total_count := some suspicious_ua.length
         suggestion := "检查客户端配置，确保User-Agent信息正确设置" }]
    else []
  httpF ++ authF ++ uaF

/-! ## Anomalies aggregate -/

structure Anomalies where
  redirect_loops : List RedirectFinding
  duplicate_requests : List DupFinding
  suspicious_patterns : List SuspFinding
  performance_issues : List PerfIssueFinding
  security_concerns : List SecFinding
  total_anomalies : Nat
  has_anomalies : Bool
deriving DecidableEq, Repr

/-- Embedding of _analyze_anomalies. -/
def analyze_anomalies (entries : List Entry) : Anomalies :=
  let rl := detect_redirect_loops entries
  let dr := detect_duplicate_requests entries
  let sp := detect_suspicious_patterns entries
  let pi := detect_performance_issues entries
  let sc := detect_security_concerns entries
  let total := rl.length + dr.length + sp.length + pi.length + sc.length
  { redirect_loops := rl
    duplicate_requests := dr
    suspicious_patterns := sp
    performance_issues := pi
    security_concerns := sc
    total_anomalies := total
    has_anomalies := total > 0 }

/-! ## Domain analyzer -/

/-- Insertion into a Python dict of accumulators: a missing key is first
bound to the given initial value, then the update is applied. -/
def dictUpdate (k : String) (init : β) (f : β → β) : List (String × β) → List (String × β)
  | [] => [(k, f init)]
  | (k2, v) :: rest => if k2 = k then (k2, f v) :: rest else (k2, v) :: dictUpdate k init f rest

structure DomainAcc where
  count : Nat
  total_size : ℤ
  total_time : ℚ
  errors : Nat
deriving DecidableEq, Repr

/-- The accumulation pass of _analyze_domains. -/
def domainFold (entries : List Entry) : List (String × DomainAcc) :=
  entries.foldl
    (fun acc e =>
      dictUpdate (urlNetloc e.request.url) ⟨0, 0, 0, 0⟩
        (fun s =>
          { count := s.count + 1
            total_size := s.total_size + contentSize e
            total_time := s.total_time + e.time
            errors := s.errors + (if e.response.status ≥ 400 then 1 else 0) })
        acc)
    []

structure DomainStat where
  domain : String
  request_count : Nat
  total_size : String
  avg_time : String
  error_count : Nat
  error_rate : String
deriving DecidableEq, Repr

structure DomainsReport where
  total_domains : Nat
  domain_stats : List DomainStat
deriving DecidableEq, Repr

/-- Embedding of _analyze_domains. -/
def analyze_domains (entries : List Entry) : DomainsReport :=
  let stats := domainFold entries
  let formatted := stats.map fun p =>
    { domain := p.1
      request_count := p.2.count
      total_size := format_size (p.2.total_size : ℚ)
      avg_time := if p.2.count > 0 then fmtFixed 2 (p.2.total_time / p.2.count) ++ "ms" else "0ms"
      error_count := p.2.errors
      error_rate :=
        if p.2.count > 0 then fmtFixed 1 ((p.2.errors : ℚ) / p.2.count * 100) ++ "%" else "0%" }
  { total_domains := stats.length
    domain_stats := pySorted (fun a b => decide (b.request_count < a.request_count)) formatted }

/-! ## File-type analyzer -/

/-- The accumulation pass of _analyze_file_types: per resolved content type,
occurrence count and cumulative size. -/
def fileTypeFold (entries : List Entry) : List (String × (Nat × ℤ)) :=
  entries.foldl
    (fun acc e =>
      dictUpdate (get_content_type e.response) (0, 0)
        (fun s => (s.1 + 1, s.2 + contentSize e)) acc)
    []

structure FileTypeStat where
  type : String
  count : Nat
  total_size : String
  avg_size : String
  percentage : String
deriving DecidableEq, Repr

/-- Embedding of _analyze_file_types. -/
def analyze_file_types (entries : List Entry) : List FileTypeStat :=
  let total_requests := entries.length
  let formatted := (fileTypeFold entries).map fun p =>
    { type := p.1
      count := p.2.1
      total_size := format_size (p.2.2 : ℚ)
      avg_size := if p.2.1 > 0 then format_size ((p.2.2 : ℚ) / p.2.1) else "0B"
      percentage :=
        if total_requests > 0 then
          fmtFixed 1 ((p.2.1 : ℚ) / total_requests * 100) ++ "%"
        else "0%" }
  pySorted (fun a b => decide (b.count < a.count)) formatted

/-! ## Timeline builder -/

structure TimelineRec where
  index : Nat
  time : String
  url : String
  method : String
  status : ℤ
  duration : ℚ
deriving DecidableEq, Repr

/-- Embedding of _create_timeline: entries with a truthy start time that
parses are projected, the record storing the isoformat rendering of the
parsed datetime; the try swallows parse failures.  The final sort key is the
time string. -/
def create_timeline (entries : List Entry) : List TimelineRec :=
  let timeline := entries.enum.filterMap fun p =>
    let st := p.2.startedDateTime
    if st ≠ "" then
      match pyParseDT st with
      | some dt =>
        some { index := p.1 + 1, time := isoformatStr dt, url := p.2.request.url
               method := p.2.request.method, status := p.2.response.status
               duration := p.2.time }
      | none => none
    else none
  pySorted (fun a b => strLtB a.time b.time) timeline

/-! ## Report assembler -/

structure Report where
  summary : Summary
  requests : List RequestInfo
  performance : Option PerformanceReport
  errors : ErrorsReport
  anomalies : Anomalies
  domains : DomainsReport
  file_types : List FileTypeStat
  timeline : List TimelineRec
deriving DecidableEq, Repr

/-- Embedding of analyze. -/
def analyze (entries : List Entry) : Report :=
  { summary := get_summary entries
    requests := analyze_requests entries
    performance := analyze_performance entries
    errors := analyze_errors entries
    anomalies := analyze_anomalies entries
    domains := analyze_domains entries
    file_types := analyze_file_types entries
    timeline := create_timeline entries }

/-! ## Specification-side definitions

These are worded from the claims rather than from the code, to be compared
with the code-side functions above. -/

/-- The classification invariant of the spec: a transaction is successful iff
its status lies in the interval from 200 inclusive to 400 exclusive. -/
def specSuccessful (e : Entry) : Prop :=
  200 ≤ e.response.status ∧ e.response.status < 400

instance : DecidablePred specSuccessful := fun e => by
  unfold specSuccessful
  infer_instance

/-- The failure side of the classification invariant as the claims word it:
status at least 400, or status 0. -/
def specFailure (e : Entry) : Prop :=
  e.response.status ≥ 400 ∨ e.response.status = 0

instance : DecidablePred specFailure := fun e => by
  unfold specFailure
  infer_instance

/-- The claim-side reading of a redirect loop: some hop's target URL equals
the from URL of an earlier hop of the same chain. -/
def revisits (c : List RedirectHop) : Prop :=
  ∃ k : Fin c.length, (c.get k).to_url ∈ (c.take k.1).map RedirectHop.from_url

instance (c : List RedirectHop) : Decidable (revisits c) := by
  unfold revisits
  infer_instance

/-- The claim-side resolution of a content type: the value of the first
case-insensitive content-type header truncated at the first semicolon and
whitespace-trimmed, or the word unknown when no such header exists. -/
def contentTypeSpec (r : Response) : String :=
  match r.headers.find? (fun h => asciiLower h.name = "content-type") with
  | some h => pyStrip (String.mk (h.value.data.takeWhile fun c => c ≠ ';'))
  | none => "unknown"

/-- The claim-side body preview policy: when the JSON branch applies and the
text is present, pretty-print and truncate to 2000 characters with an
ellipsis, falling back to the raw text truncated to 1000 characters on a
parse failure; otherwise the raw text truncated to 1000 characters. -/
def previewPolicy (isJsonMime : Bool) (text : String) : String :=
  if isJsonMime ∧ text ≠ "" then
    match json_loads text with
    | some j => truncEllipsis 2000 (json_dumps2 j)
    | none => truncEllipsis 1000 text
  else truncEllipsis 1000 text

/-- The claim-side offender list of the User-Agent scan, after the
correction: entries whose first case-insensitive User-Agent header exists
and carries a value shorter than 20 characters. -/
def uaOffendersSpec (entries : List Entry) : List UaOffender :=
  entries.enum.filterMap fun p =>
    match findHeader "user-agent" p.2.request.headers with
    | some h =>
      if h.value = "" ∨ h.value.length < 20 then
        some { index := p.1 + 1, url := p.2.request.url
               user_agent := if h.value = "" then "空" else h.value }
      else none
    | none => none

/-- The original 1-based positions, in the full document, of the entries the
error analyzer classifies as failures, in document order: the i-th element
is the original index the claims expect for the i-th detailed error
record. -/
def failurePositions (entries : List Entry) : List Nat :=
  entries.enum.filterMap fun p =>
    if p.2.response.status ≥ 400 ∨ p.2.response.status = 0 then some (p.1 + 1) else none

/-! ## Concrete documents used by counterexamples and witnesses -/

/-- An entry whose response carries the informational status 100. -/
def e100 : Entry := { response := { status := 100 } }

/-- A successful entry. -/
def e200 : Entry := { response := { status := 200 } }

/-- A two-entry document: one network-level failure (status 0, the default of
an absent response), one success. -/
def docC3 : List Entry := [{}, e200]

/-- A not-found failure. -/
def e404 : Entry :=
  { request := { url := "http://a/x" }, response := { status := 404, statusText := some "Not Found" } }

/-- Two identical failures: same url and same status. -/
def docC4 : List Entry := [e404, e404]

/-- A 301 hop from a fixed URL to the given target. -/
def mkRedir (url loc : String) : Entry :=
  { request := { url := url }
    response := { status := 301, headers := [{ name := "Location", value := loc }] } }

/-- Four redirect hops from one URL whose third hop returns to it. -/
def docC5 : List Entry :=
  [mkRedir "http://a/r" "http://b", mkRedir "http://a/r" "http://c",
   mkRedir "http://a/r" "http://a/r", mkRedir "http://a/r" "http://d"]

/-- The redirect chain the grouping pass of the detector builds for docC5. -/
def chainC5 : List RedirectHop :=
  [{ index := 1, from_url := "http://a/r", to_url := "http://b", status := 301, time := "" },
   { index := 2, from_url := "http://a/r", to_url := "http://c", status := 301, time := "" },
   { index := 3, from_url := "http://a/r", to_url := "http://a/r", status := 301, time := "" },
   { index := 4, from_url := "http://a/r", to_url := "http://d", status := 301, time := "" }]

/-- One occurrence of the repeated request, at the given start time. -/
def mkDup (t : String) : Entry :=
  { request := { url := "http://a/x", method := "GET" }, startedDateTime := t }

/-- Four identical requests of which one start time does not parse; the
parsed ones span ten seconds. -/
def docC6 : List Entry :=
  [mkDup "2024-01-01T00:00:00+00:00", mkDup "bad",
   mkDup "2024-01-01T00:00:05+00:00", mkDup "2024-01-01T00:00:10+00:00"]

/-- Three identical occurrences: below the duplicate threshold. -/
def grpW3 : List DupOccurrence :=
  [{ index := 1, url := "http://a/x", method := "GET", time := "2024-01-01T00:00:00+00:00",
     status := 200, duration := 0 },
   { index := 2, url := "http://a/x", method := "GET", time := "2024-01-01T00:00:01+00:00",
     status := 200, duration := 0 },
   { index := 3, url := "http://a/x", method := "GET", time := "2024-01-01T00:00:02+00:00",
     status := 200, duration := 0 }]

/-- Two entries whose start times carry different UTC offsets: the first is
the earlier instant but the later isoformat string. -/
def docC7 : List Entry :=
  [{ startedDateTime := "2024-01-01T10:00:00+09:00" },
   { startedDateTime := "2024-01-01T02:00:00+00:00" }]

/-- A JSON response body whose declared MIME type carries a parameter. -/
def c8 : Content := { mimeType := "application/json; charset=utf-8", text := "[1, 2]" }

/-- An entry whose request has no User-Agent header at all. -/
def eNoUA : Entry := { request := { url := "https://a/x", headers := [] } }

/-- The method:url group the duplicate detector builds for docC6. -/
def grpC6 : List DupOccurrence :=
  [{ index := 1, url := "http://a/x", method := "GET", time := "2024-01-01T00:00:00+00:00",
     status := 0, duration := 0 },
   { index := 2, url := "http://a/x", method := "GET", time := "bad",
     status := 0, duration := 0 },
   { index := 3, url := "http://a/x", method := "GET", time := "2024-01-01T00:00:05+00:00",
     status := 0, duration := 0 },
   { index := 4, url := "http://a/x", method := "GET", time := "2024-01-01T00:00:10+00:00",
     status := 0, duration := 0 }]

/-- Count component the file-type statistics dict holds at a key, zero when
the key is absent. -/
def ftCountAt (l : List (String × (Nat × ℤ))) (t : String) : Nat :=
  match l.find? (fun p => p.1 = t) with
  | some p => p.2.1
  | none => 0

/-! ## Properties of the stable sort model -/

theorem insSorted_perm (lt : α → α → Bool) (x : α) (l : List α) :
    List.Perm (insSorted lt x l) (x :: l) := by
  induction l with
  | nil => rfl
  | cons y ys ih =>
    simp only [insSorted]
    split
    · exact (ih.cons y).trans (List.Perm.swap x y ys)
    · rfl

theorem pySorted_perm (lt : α → α → Bool) (l : List α) : List.Perm (pySorted lt l) l := by
  induction l with
  | nil => rfl
  | cons x xs ih => exact (insSorted_perm lt x (pySorted lt xs)).trans (ih.cons x)

theorem insSorted_pairwise (lt : α → α → Bool)
    (hasymm : ∀ a b, lt a b = true → lt b a = false)
    (htrans : ∀ a b c, lt b a = false → lt c b = false → lt c a = false)
    (x : α) (l : List α) (hl : l.Pairwise fun a b => lt b a = false) :
    (insSorted lt x l).Pairwise fun a b => lt b a = false := by
  induction l with
  | nil => simp [insSorted]
  | cons y ys ih =>
    rw [List.pairwise_cons] at hl
    obtain ⟨hy, hys⟩ := hl
    simp only [insSorted]
    split
    case isTrue h =>
      refine List.Pairwise.cons ?_ (ih hys)
      intro z hz
      rcases List.mem_cons.mp ((insSorted_perm lt x ys).mem_iff.mp hz) with rfl | hzys
      · exact hasymm y z h
      · exact hy z hzys
    case isFalse h =>
      rw [Bool.not_eq_true] at h
      refine List.Pairwise.cons ?_ (List.Pairwise.cons hy hys)
      intro z hz
      rcases List.mem_cons.mp hz with rfl | hzys
      · exact h
      · exact htrans x y z h (hy z hzys)

theorem pySorted_pairwise (lt : α → α → Bool)
    (hasymm : ∀ a b, lt a b = true → lt b a = false)
    (htrans : ∀ a b c, lt b a = false → lt c b = false → lt c a = false)
    (l : List α) : (pySorted lt l).Pairwise fun a b => lt b a = false := by
  induction l with
  | nil => exact List.Pairwise.nil
  | cons x xs ih => exact insSorted_pairwise lt hasymm htrans x _ ih

/-! ## Order properties of the code point comparison -/

theorem charToNat_inj {x y : Char} (h : x.toNat = y.toNat) : x = y := by
  rw [← Char.ofNat_toNat x, ← Char.ofNat_toNat y, h]

theorem charListLt_irrefl : ∀ a : List Char, charListLt a a = false := by
  intro a
  induction a with
  | nil => rfl
  | cons x xs ih => simp [charListLt, ih]

theorem charListLt_asymm : ∀ a b : List Char, charListLt a b = true → charListLt b a = false := by
  intro a
  induction a with
  | nil =>
    intro b h
    cases b with
    | nil => simp [charListLt] at h
    | cons y ys => simp [charListLt]
  | cons x xs ih =>
    intro b h
    cases b with
    | nil => simp [charListLt] at h
    | cons y ys =>
      simp only [charListLt] at h ⊢
      by_cases h1 : x.toNat < y.toNat
      · have h2 : ¬ y.toNat < x.toNat := by omega
        simp [h1, h2]
      · by_cases h2 : y.toNat < x.toNat
        · simp [h1, h2] at h
        · simp only [h1, h2, if_false] at h ⊢
          exact ih ys h

theorem charListLt_trans :
    ∀ a b c : List Char, charListLt a b = true → charListLt b c = true → charListLt a c = true := by
  intro a
  induction a with
  | nil =>
    intro b c hab hbc
    cases b with
    | nil => simp [charListLt] at hab
    | cons y ys =>
      cases c with
      | nil => simp [charListLt] at hbc
      | cons z zs => simp [charListLt]
  | cons x xs ih =>
    intro b c hab hbc
    cases b with
    | nil => simp [charListLt] at hab
    | cons y ys =>
      cases c with
      | nil => simp [charListLt] at hbc
      | cons z zs =>
        simp only [charListLt] at hab hbc ⊢
        by_cases hxy : x.toNat < y.toNat
        · by_cases hyz : y.toNat < z.toNat
          · have hxz : x.toNat < z.toNat := by omega
            simp [hxz]
          · by_cases hzy : z.toNat < y.toNat
            · simp [hyz, hzy] at hbc
            · have hxz : x.toNat < z.toNat := by omega
              simp [hxz]
        · by_cases hyx : y.toNat < x.toNat
          · simp [hxy, hyx] at hab
          · by_cases hyz : y.toNat < z.toNat
            · have hxz : x.toNat < z.toNat := by omega
              simp [hxz]
            · by_cases hzy : z.toNat < y.toNat
              · simp [hyz, hzy] at hbc
              · have hxz : ¬ x.toNat < z.toNat := by omega
                have hzx : ¬ z.toNat < x.toNat := by omega
                simp only [hxy, hyx, if_false] at hab
                simp only [hyz, hzy, if_false] at hbc
                simp only [hxz, hzx, if_false]
                exact ih ys zs hab hbc

theorem charListLt_trichot :
    ∀ a b : List Char, charListLt a b = true ∨ a = b ∨ charListLt b a = true := by
  intro a
  induction a with
  | nil =>
    intro b
    cases b with
    | nil => exact Or.inr (Or.inl rfl)
    | cons y ys => exact Or.inl (by simp [charListLt])
  | cons x xs ih =>
    intro b
    cases b with
    | nil => exact Or.inr (Or.inr (by simp [charListLt]))
    | cons y ys =>
      by_cases hxy : x.toNat < y.toNat
      · exact Or.inl (by simp [charListLt, hxy])
      · by_cases hyx : y.toNat < x.toNat
        · exact Or.inr (Or.inr (by simp [charListLt, hyx]))
        · have hx : x = y := charToNat_inj (by omega)
          rcases ih ys with h | h | h
          · exact Or.inl (by simp [charListLt, hxy, hyx, h])
          · exact Or.inr (Or.inl (by rw [hx, h]))
          · exact Or.inr (Or.inr (by simp [charListLt, hxy, hyx, h]))

theorem charListLt_negtrans (a b c : List Char)
    (h1 : charListLt b a = false) (h2 : charListLt c b = false) : charListLt c a = false := by
  cases hca : charListLt c a with
  | false => rfl
  | true =>
    exfalso
    rcases charListLt_trichot a b with h | rfl | h
    · rw [charListLt_trans c a b hca h] at h2
      exact Bool.noConfusion h2
    · rw [hca] at h2
      exact Bool.noConfusion h2
    · rw [h] at h1
      exact Bool.noConfusion h1

theorem strLtB_asymm (a b : String) (h : strLtB a b = true) : strLtB b a = false :=
  charListLt_asymm a.data b.data h

theorem strLtB_negtrans (a b c : String) (h1 : strLtB b a = false) (h2 : strLtB c b = false) :
    strLtB c a = false :=
  charListLt_negtrans a.data b.data c.data h1 h2

/-! ## Properties of header lookup -/

theorem findHeader_eq_find? (name : String) (l : List Header) :
    findHeader name l = l.find? fun h => asciiLower h.name = name := by
  induction l with
  | nil => rfl
  | cons h rest ih =>
    simp only [findHeader, List.find?]
    by_cases hc : asciiLower h.name = name
    · simp [hc]
    · simp [hc, ih]

/-! ## Properties of the dict models -/

theorem upsertApp_map_fst (k : String) (v : α) (l : List (String × List α)) :
    (upsertApp k v l).map Prod.fst =
      if k ∈ l.map Prod.fst then l.map Prod.fst else l.map Prod.fst ++ [k] := by
  induction l with
  | nil => simp [upsertApp]
  | cons p rest ih =>
    obtain ⟨k2, vs⟩ := p
    simp only [upsertApp]
    by_cases hk : k2 = k
    · subst hk
      simp
    · simp only [hk, if_false, List.map_cons, ih]
      by_cases hmem : k ∈ rest.map Prod.fst
      · simp [hmem, Ne.symm hk]
      · simp [hmem, Ne.symm hk, hk]

theorem upsertApp_nodup_fst (k : String) (v : α) (l : List (String × List α))
    (h : (l.map Prod.fst).Nodup) : ((upsertApp k v l).map Prod.fst).Nodup := by
  rw [upsertApp_map_fst]
  split
  · exact h
  · next hmem =>
      exact ((List.perm_append_singleton k (l.map Prod.fst)).nodup_iff).mpr
        (by simp [List.nodup_cons, h, hmem])

theorem dictUpdate_map_fst (k : String) (init : β) (f : β → β) (l : List (String × β)) :
    (dictUpdate k init f l).map Prod.fst =
      if k ∈ l.map Prod.fst then l.map Prod.fst else l.map Prod.fst ++ [k] := by
  induction l with
  | nil => simp [dictUpdate]
  | cons p rest ih =>
    obtain ⟨k2, v⟩ := p
    simp only [dictUpdate]
    by_cases hk : k2 = k
    · subst hk
      simp
    · simp only [hk, if_false, List.map_cons, ih]
      by_cases hmem : k ∈ rest.map Prod.fst
      · simp [hmem, Ne.symm hk]
      · simp [hmem, Ne.symm hk, hk]

theorem dictUpdate_nodup_fst (k : String) (init : β) (f : β → β) (l : List (String × β))
    (h : (l.map Prod.fst).Nodup) : ((dictUpdate k init f l).map Prod.fst).Nodup := by
  rw [dictUpdate_map_fst]
  split
  · exact h
  · next hmem =>
      exact ((List.perm_append_singleton k (l.map Prod.fst)).nodup_iff).mpr
        (by simp [List.nodup_cons, h, hmem])

/-- Generic fold invariant. -/
theorem foldl_invariant {P : β → Prop} (step : β → σ → β)
    (h : ∀ b x, P b → P (step b x)) :
    ∀ (xs : List σ) (b : β), P b → P (xs.foldl step b) := by
  intro xs
  induction xs with
  | nil => intro b hb; exact hb
  | cons x rest ih => intro b hb; exact ih (step b x) (h b x hb)

/-! ## Characterization of the redirect loop scan -/

theorem detectLoopFrom_eq_true_iff (c : List RedirectHop) (visited : List String) :
    detectLoopFrom c visited = true ↔
      ∃ k : Fin c.length, (c.get k).to_url ∈ visited ∨
        (c.get k).to_url ∈ (c.take k.1).map RedirectHop.from_url := by
  induction c generalizing visited with
  | nil =>
    simp only [detectLoopFrom]
    constructor
    · intro h
      exact Bool.noConfusion h
    · rintro ⟨k, -⟩
      exact absurd k.2 (by simp)
  | cons h t ih =>
    by_cases hmem : h.to_url ∈ visited
    · simp only [detectLoopFrom, if_pos hmem]
      exact ⟨fun _ => ⟨⟨0, by simp⟩, Or.inl hmem⟩, fun _ => trivial⟩
    · simp only [detectLoopFrom, if_neg hmem]
      rw [ih (h.from_url :: visited)]
      constructor
      · rintro ⟨k, hk⟩
        refine ⟨k.succ, ?_⟩
        show (t.get k).to_url ∈ visited ∨
          (t.get k).to_url ∈ h.from_url :: (t.take k.1).map RedirectHop.from_url
        rcases hk with hk | hk
        · rcases List.mem_cons.mp hk with heq | hv
          · exact Or.inr (by rw [heq]; exact List.mem_cons_self _ _)
          · exact Or.inl hv
        · exact Or.inr (List.mem_cons_of_mem _ hk)
      · rintro ⟨k, hk⟩
        obtain ⟨kv, hklt⟩ := k
        cases kv with
        | zero =>
          have hk2 : h.to_url ∈ visited ∨ h.to_url ∈ ([] : List String) := hk
          rcases hk2 with hk2 | hk2
          · exact absurd hk2 hmem
          · exact absurd hk2 (List.not_mem_nil _)
        | succ kk =>
          refine ⟨⟨kk, Nat.lt_of_succ_lt_succ hklt⟩, ?_⟩
          have hk2 : (t.get ⟨kk, Nat.lt_of_succ_lt_succ hklt⟩).to_url ∈ visited ∨
              (t.get ⟨kk, Nat.lt_of_succ_lt_succ hklt⟩).to_url ∈
                h.from_url :: (t.take kk).map RedirectHop.from_url := hk
          rcases hk2 with hk2 | hk2
          · exact Or.inl (List.mem_cons_of_mem _ hk2)
          · rcases List.mem_cons.mp hk2 with heq | hv
            · exact Or.inl (List.mem_cons.mpr (Or.inl heq))
            · exact Or.inr hv

theorem detectLoop_iff_revisits (c : List RedirectHop) :
    detectLoopFrom c [] = true ↔ revisits c := by
  rw [detectLoopFrom_eq_true_iff]
  unfold revisits
  simp

/-! ## Fold characterizations of Python min and max -/

theorem le_foldl_max (l : List ℤ) (a : ℤ) : a ≤ l.foldl max a := by
  induction l generalizing a with
  | nil => exact le_refl a
  | cons x xs ih => exact le_trans (le_max_left a x) (ih (max a x))

theorem mem_le_foldl_max (l : List ℤ) (a : ℤ) : ∀ x ∈ l, x ≤ l.foldl max a := by
  induction l generalizing a with
  | nil => simp
  | cons y ys ih =>
    intro x hx
    rcases List.mem_cons.mp hx with rfl | hx2
    · exact le_trans (le_max_right a x) (le_foldl_max ys (max a x))
    · exact ih (max a y) x hx2

theorem foldl_max_mem (l : List ℤ) (a : ℤ) : l.foldl max a = a ∨ l.foldl max a ∈ l := by
  induction l generalizing a with
  | nil => exact Or.inl rfl
  | cons y ys ih =>
    rcases ih (max a y) with h | h
    · rcases max_choice a y with hm | hm
      · exact Or.inl (by rw [List.foldl_cons, h, hm])
      · exact Or.inr (by rw [List.foldl_cons, h, hm]; exact List.mem_cons_self _ _)
    · exact Or.inr (List.mem_cons_of_mem _ (by rwa [List.foldl_cons]))

theorem foldl_min_le (l : List ℤ) (a : ℤ) : l.foldl min a ≤ a := by
  induction l generalizing a with
  | nil => exact le_refl a
  | cons x xs ih => exact le_trans (ih (min a x)) (min_le_left a x)

theorem foldl_min_le_mem (l : List ℤ) (a : ℤ) : ∀ x ∈ l, l.foldl min a ≤ x := by
  induction l generalizing a with
  | nil => simp
  | cons y ys ih =>
    intro x hx
    rcases List.mem_cons.mp hx with rfl | hx2
    · exact le_trans (foldl_min_le ys (min a x)) (min_le_right a x)
    · exact ih (min a y) x hx2

theorem foldl_min_mem (l : List ℤ) (a : ℤ) : l.foldl min a = a ∨ l.foldl min a ∈ l := by
  induction l generalizing a with
  | nil => exact Or.inl rfl
  | cons y ys ih =>
    rcases ih (min a y) with h | h
    · rcases min_choice a y with hm | hm
      · exact Or.inl (by rw [List.foldl_cons, h, hm])
      · exact Or.inr (by rw [List.foldl_cons, h, hm]; exact List.mem_cons_self _ _)
    · exact Or.inr (List.mem_cons_of_mem _ (by rwa [List.foldl_cons]))


theorem headD_mem {l : List α} (h : l ≠ []) (d : α) : l.headD d ∈ l := by
  cases l with
  | nil => exact absurd rfl h
  | cons x xs => exact List.mem_cons_self x xs

theorem truncEllipsis_empty (n : Nat) : truncEllipsis n "" = "" := by
  cases n <;> rfl

theorem previewPolicy_decide (P : Prop) [Decidable P] (text : String) :
    previewPolicy (decide P) text =
      if P ∧ text ≠ "" then
        match json_loads text with
        | some j => truncEllipsis 2000 (json_dumps2 j)
        | none => truncEllipsis 1000 text
      else truncEllipsis 1000 text := by
  unfold previewPolicy
  by_cases hP : P <;> simp [hP]

theorem response_preview_shape (c : Content) :
    (get_response_preview (some c)).map ResponsePreview.preview =
      some (if pyStartsWith c.mimeType "application/json" then
          if c.text ≠ "" then
            match json_loads c.text with
            | some j => truncEllipsis 2000 (json_dumps2 j)
            | none => if c.text ≠ "" then truncEllipsis 1000 c.text else ""
          else ""
        else if c.text ≠ "" then truncEllipsis 1000 c.text else "") := rfl

theorem pyParseDT_empty : pyParseDT "" = none := rfl

theorem find?_eq_of_perm_of_unique {l l2 : List α} (hperm : List.Perm l l2) (p : α → Bool)
    (huniq : ∀ x ∈ l, ∀ y ∈ l, p x = true → p y = true → x = y) :
    l.find? p = l2.find? p := by
  cases hl : l.find? p with
  | none =>
    rw [List.find?_eq_none] at hl
    cases hl2 : l2.find? p with
    | none => rfl
    | some y =>
      have hy := List.find?_some hl2
      have hmem := List.mem_of_find?_eq_some hl2
      exact absurd hy (hl y (hperm.symm.subset hmem))
  | some x =>
    have hx := List.find?_some hl
    have hmemx := List.mem_of_find?_eq_some hl
    cases hl2 : l2.find? p with
    | none =>
      rw [List.find?_eq_none] at hl2
      exact absurd hx (hl2 x (hperm.subset hmemx))
    | some y =>
      have hy := List.find?_some hl2
      have hmemy := List.mem_of_find?_eq_some hl2
      rw [huniq x hmemx y (hperm.symm.subset hmemy) hx hy]

theorem dictUpdate_find_prop (k t : String) (init : β) (f : β → β) (l : List (String × β)) :
    (dictUpdate k init f l).find? (fun p => p.1 = t) =
      if k = t then
        some (k, f (match l.find? (fun p => p.1 = t) with | some p => p.2 | none => init))
      else l.find? (fun p => p.1 = t) := by
  induction l with
  | nil =>
    simp only [dictUpdate, List.find?]
    by_cases hk : k = t
    · simp [hk]
    · simp [hk]
  | cons p rest ih =>
    obtain ⟨k2, v⟩ := p
    simp only [dictUpdate]
    by_cases h2 : k2 = k
    · subst h2
      by_cases hk : k2 = t
      · subst hk
        simp [List.find?]
      · simp [List.find?, hk]
    · simp only [h2, if_false]
      by_cases hk2t : k2 = t
      · subst hk2t
        have hkt : ¬ k = k2 := fun h => h2 h.symm
        simp [List.find?, hkt]
      · simp only [List.find?, hk2t, decide_eq_true_eq, if_neg hk2t]
        rw [ih]
        by_cases hkt : k = t
        · simp [hkt, hk2t]
        · simp [hkt]

theorem fileTypeFold_countAt (t : String) :
    ∀ (xs : List Entry) (acc : List (String × (Nat × ℤ))),
      ftCountAt (xs.foldl
        (fun a e => dictUpdate (get_content_type e.response) (0, 0)
          (fun s => (s.1 + 1, s.2 + contentSize e)) a) acc) t
        = ftCountAt acc t + xs.countP (fun e => get_content_type e.response = t) := by
  intro xs
  induction xs with
  | nil => intro acc; simp [ftCountAt]
  | cons e rest ih =>
    intro acc
    rw [List.foldl_cons, ih, List.countP_cons]
    have hstep : ftCountAt (dictUpdate (get_content_type e.response) (0, 0)
        (fun s => (s.1 + 1, s.2 + contentSize e)) acc) t
        = ftCountAt acc t + (if get_content_type e.response = t then 1 else 0) := by
      unfold ftCountAt
      rw [dictUpdate_find_prop]
      by_cases hk : get_content_type e.response = t
      · simp only [hk, if_pos rfl, if_true]
        cases hacc : acc.find? (fun p => p.1 = t) with
        | none => simp
        | some p => simp
      · simp [hk]
    rw [hstep]
    simp [Nat.add_assoc, Nat.add_comm]

/-! ## Claim C1

After the correction: the summary counts satisfy the additive identity, the
successful count is the number of entries with status in the interval from
200 inclusive to 400 exclusive, and the failed count is the number of all
other entries, which includes every status below 200 (status 0 among them)
as well as every status of 400 or more. -/

/-- Claim C1, amended: for every document the summary satisfies
successful plus failed equals total, the successful count is exactly the
number of entries the classification invariant calls successful, and the
failed count is exactly the number of the remaining entries. -/
theorem claim_C1_summary_classification (entries : List Entry) :
    (get_summary entries).successful_requests + (get_summary entries).failed_requests
        = (get_summary entries).total_requests
    ∧ (get_summary entries).successful_requests
        = entries.countP (fun e => decide (specSuccessful e))
    ∧ (get_summary entries).failed_requests
        = entries.countP (fun e => !decide (specSuccessful e)) := by
  have hs : (get_summary entries).successful_requests
      = entries.countP (fun e => decide (specSuccessful e)) := by
    show (entries.filter fun e =>
      decide (200 ≤ e.response.status ∧ e.response.status < 400)).length = _
    rw [← List.countP_eq_length_filter]
    rfl
  have ht : (get_summary entries).total_requests = entries.length := rfl
  have hf : (get_summary entries).failed_requests
      = entries.length - (entries.filter fun e =>
          decide (200 ≤ e.response.status ∧ e.response.status < 400)).length := rfl
  have hsplit : entries.length
      = entries.countP (fun e => decide (specSuccessful e))
        + entries.countP (fun e => !decide (specSuccessful e)) := by
    have h0 := List.length_eq_countP_add_countP
      (p := fun e => decide (specSuccessful e)) entries
    rw [h0]
    congr 1
    apply List.countP_congr
    intro e _
    simp
  have hle : entries.countP (fun e => decide (specSuccessful e)) ≤ entries.length :=
    List.countP_le_length _
  have hcp : entries.countP (fun e => decide (specSuccessful e))
      = (entries.filter fun e =>
          decide (200 ≤ e.response.status ∧ e.response.status < 400)).length := by
    rw [← List.countP_eq_length_filter]
    rfl
  refine ⟨?_, hs, ?_⟩
  · rw [hs, ht, hf]
    omega
  · rw [hf]
    omega

/-- Counterexample to claim C1 as stated: the summary counts the status 100
entry as failed, yet its status is neither at least 400 nor zero. -/
theorem claim_C1_counterexample :
    (get_summary [e100]).failed_requests = 1 ∧ ¬ specFailure e100 := by
  constructor
  · decide
  · decide

/-! ## Claim C2 -/

/-- Claim C2: on the empty document the analysis is a total function whose
report consists of the zero and empty aggregates only, with both rate
strings equal to the zero-percent string. -/
theorem claim_C2_empty_document :
    analyze [] =
      { summary :=
          { total_requests := 0, successful_requests := 0, failed_requests := 0
            success_rate := "0%", avg_response_time := "0.00ms", total_size := "0B"
            total_time := "0.00ms" }
        requests := []
        performance := none
        errors :=
          { total_errors := 0, error_rate := "0%", error_breakdown := [], detailed_errors := [] }
        anomalies :=
          { redirect_loops := [], duplicate_requests := [], suspicious_patterns := []
            performance_issues := [], security_concerns := []
            total_anomalies := 0, has_anomalies := false }
        domains := { total_domains := 0, domain_stats := [] }
        file_types := []
        timeline := [] } := by
  rfl

/-! ## Claim C3

After the correction: the high finding fires on the rate of entries with
status at least 400 only; entries with status 0 are not counted as failures
by this detector, although the documentwide classification invariant calls
them failures. -/

theorem filter_suspSev_nil (t : String) (l : List SuspFinding)
    (h : ∀ f ∈ l, f.severity ≠ t) : l.filter (fun f => f.severity = t) = [] := by
  rw [List.filter_eq_nil_iff]
  intro f hf
  simpa using h f hf

theorem suspLarge_filter_high (entries : List Entry) :
    (suspLargeFindings entries).filter (fun f => f.severity = "高") = [] := by
  apply filter_suspSev_nil
  intro f hf
  unfold suspLargeFindings at hf
  revert hf
  split
  · intro hf
    rw [List.mem_singleton.mp hf]
    show ("中" : String) ≠ "高"
    decide
  · intro hf
    exact absurd hf (List.not_mem_nil f)

theorem suspSlow_filter_high (entries : List Entry) :
    (suspSlowFindings entries).filter (fun f => f.severity = "高") = [] := by
  apply filter_suspSev_nil
  intro f hf
  unfold suspSlowFindings at hf
  revert hf
  split
  · intro hf
    rw [List.mem_singleton.mp hf]
    show ("中" : String) ≠ "高"
    decide
  · intro hf
    exact absurd hf (List.not_mem_nil f)

theorem suspErrorCount_eq (entries : List Entry) :
    suspErrorCount entries = entries.countP (fun e => decide (e.response.status ≥ 400)) := by
  rw [List.countP_eq_length_filter]
  rfl

/-- Claim C3, amended: the suspicious-pattern detector emits a high finding
exactly when the document is nonempty and the entries with status at least
400 make up strictly more than thirty percent of it; entries with status 0
do not count as failures here. -/
theorem claim_C3_high_error_rate (entries : List Entry) :
    (detect_suspicious_patterns entries).filter (fun f => f.severity = "高") =
      (if 0 < entries.length ∧
          ((entries.countP (fun e => decide (e.response.status ≥ 400)) : ℚ) / entries.length
            > 0.3) then
        [{ type := "高错误率", severity := "高"
           description := "错误请求占比过高: " ++
             fmtFixed 1 ((entries.countP (fun e => decide (e.response.status ≥ 400)) : ℚ)
               / entries.length * 100) ++ "%"
           count := some (entries.countP (fun e => decide (e.response.status ≥ 400)))
           total := some entries.length
           suggestion := "检查网络连接、服务器状态或认证配置" }]
      else []) := by
  unfold detect_suspicious_patterns
  rw [List.filter_append, List.filter_append, suspLarge_filter_high, suspSlow_filter_high,
    List.append_nil, List.append_nil]
  unfold suspHighRateFindings
  rw [← suspErrorCount_eq]
  by_cases h : entries.length > 0 ∧ (suspErrorCount entries : ℚ) / entries.length > 0.3
  · rw [if_pos h]
    rw [List.filter_eq_self.mpr ?ha]
    case ha =>
      intro f hf
      rw [List.mem_singleton.mp hf]
      rfl
  · rw [if_neg h]
    rfl

/-- Counterexample to claim C3 as stated: in a two-entry document with one
status 0 entry the documentwide failure rate is one half, above the thirty
percent threshold, yet the detector emits no finding at all, because it does
not count status 0 as a failure. -/
theorem claim_C3_counterexample :
    detect_suspicious_patterns docC3 = []
    ∧ docC3.countP (fun e => decide (specFailure e)) = 1
    ∧ 0 < docC3.length
    ∧ (0.3 : ℚ) < (docC3.countP (fun e => decide (specFailure e)) : ℚ) / docC3.length := by
  have h0 : suspErrorCount docC3 = 0 := rfl
  have hcond : ¬(docC3.length > 0 ∧ (suspErrorCount docC3 : ℚ) / docC3.length > 0.3) := by
    rw [h0]
    rintro ⟨-, hgt⟩
    norm_num at hgt
  have hcnt : docC3.countP (fun e => decide (specFailure e)) = 1 := by decide
  refine ⟨?_, hcnt, by decide, ?_⟩
  · unfold detect_suspicious_patterns suspHighRateFindings suspLargeFindings suspSlowFindings
    rw [if_neg hcond,
      if_neg (fun h => h (show largeResponsesList docC3 = [] from rfl)),
      if_neg (fun h => h (show slowRequestsList docC3 = [] from rfl))]
    rfl
  · rw [hcnt]
    show (0.3 : ℚ) < (1 : ℚ) / (docC3.length : ℚ)
    norm_num [docC3]

/-! ## Claim C4

After the correction: the index stored in a detailed error record is the
1-based position of the first entry of the whole document carrying the same
url and status as the failure.  When an earlier entry shares url and status
with a later failure, the later record repeats the earlier index instead of
its own original position, so the stated property fails on documents with
duplicate failures. -/

theorem detailed_errors_eq (entries : List Entry) :
    (analyze_errors entries).detailed_errors
      = (entries.filter isFailureB).enum.map fun p => mkErrorDetail entries p.1 p.2 := rfl

theorem mkErrorDetail_index (entries : List Entry) (i : Nat) (e : Entry) :
    (mkErrorDetail entries i e).index =
      match entries.findIdx?
          (fun o => decide (o.request.url = e.request.url
            ∧ o.response.status = e.response.status)) with
      | some j => j + 1
      | none => i + 1 := rfl

/-- Claim C4, amended: the index field of the i-th detailed error record is
j plus one, where j is the position of the first entry of the document whose
url and status equal those of the i-th failure; such an entry always exists,
so the failure-subsequence fallback never fires. -/
theorem claim_C4_error_index (entries : List Entry) (i : Nat) (e : Entry)
    (he : (entries.filter isFailureB)[i]? = some e) :
    ∃ j, ∃ hj : j < entries.length,
      ((analyze_errors entries).detailed_errors[i]?.map ErrorDetail.index) = some (j + 1)
      ∧ (entries.get ⟨j, hj⟩).request.url = e.request.url
      ∧ (entries.get ⟨j, hj⟩).response.status = e.response.status
      ∧ ∀ j2 (hj2 : j2 < entries.length), j2 < j →
          ¬ ((entries.get ⟨j2, hj2⟩).request.url = e.request.url
             ∧ (entries.get ⟨j2, hj2⟩).response.status = e.response.status) := by
  have hmem : e ∈ entries := by
    have := List.getElem?_mem he
    exact List.mem_of_mem_filter this
  have hex : ∃ x, x ∈ entries ∧
      (fun o => decide (o.request.url = e.request.url ∧ o.response.status = e.response.status)) x
        = true := ⟨e, hmem, by simp⟩
  have hfind := List.findIdx?_eq_some_of_exists hex
  obtain ⟨hjlt, hpj, hprev⟩ := List.findIdx?_eq_some_iff_getElem.mp hfind
  refine ⟨_, hjlt, ?_, ?_, ?_, ?_⟩
  · rw [detailed_errors_eq, List.getElem?_map, List.getElem?_enum, he]
    show some (mkErrorDetail entries i e).index = _
    rw [mkErrorDetail_index, hfind]
  · simpa using (of_decide_eq_true hpj).1
  · simpa using (of_decide_eq_true hpj).2
  · intro j2 hj2 hlt hcon
    exact absurd (by simpa using hcon) (by simpa using hprev j2 hlt)

/-- Counterexample to claim C4 as stated: on a document of two identical
failures, the second detailed record carries index 1, but the original
1-based index of the second failure is 2. -/
theorem claim_C4_counterexample :
    ((analyze_errors docC4).detailed_errors.map ErrorDetail.index) = [1, 1]
    ∧ failurePositions docC4 = [1, 2]
    ∧ ([1, 1] : List Nat) ≠ [1, 2] := by
  refine ⟨by rfl, by rfl, by decide⟩

/-- Witness for claim C4, instantiated on the duplicate-failure document at
the second failure. -/
theorem claim_C4_witness :
    (docC4.filter isFailureB)[1]? = some e404
    ∧ ∃ j, ∃ hj : j < docC4.length,
        ((analyze_errors docC4).detailed_errors[1]?.map ErrorDetail.index) = some (j + 1)
        ∧ (docC4.get ⟨j, hj⟩).request.url = e404.request.url
        ∧ (docC4.get ⟨j, hj⟩).response.status = e404.response.status
        ∧ ∀ j2 (hj2 : j2 < docC4.length), j2 < j →
            ¬ ((docC4.get ⟨j2, hj2⟩).request.url = e404.request.url
               ∧ (docC4.get ⟨j2, hj2⟩).response.status = e404.response.status) :=
  ⟨by decide, claim_C4_error_index docC4 1 e404 (by decide)⟩

/-! ## Claim C5 -/

theorem redirectGroupFindings_url {u : String} {c : List RedirectHop} :
    ∀ f ∈ redirectGroupFindings u c, f.url = u := by
  intro f hf
  unfold redirectGroupFindings at hf
  revert hf
  split
  · split
    · intro hf
      rw [List.mem_singleton.mp hf]
    · intro hf
      exact absurd hf (List.not_mem_nil f)
  · split
    · intro hf
      rw [List.mem_singleton.mp hf]
    · intro hf
      exact absurd hf (List.not_mem_nil f)

theorem redirect_filter_group (gs : List (String × List RedirectHop)) (u : String)
    (c : List RedirectHop) (hnd : (gs.map Prod.fst).Nodup) (hmem : (u, c) ∈ gs) :
    ((gs.flatMap fun p => redirectGroupFindings p.1 p.2).filter (fun f => f.url = u))
      = redirectGroupFindings u c := by
  induction gs with
  | nil => exact absurd hmem (List.not_mem_nil _)
  | cons g rest ih =>
    obtain ⟨k, v⟩ := g
    rw [List.flatMap_cons, List.filter_append]
    rw [List.map_cons, List.nodup_cons] at hnd
    rcases List.mem_cons.mp hmem with heq | hmem2
    · injection heq with hk hv
      rw [← hk, ← hv] at hnd ⊢
      have h1 : (redirectGroupFindings u c).filter (fun f => f.url = u)
          = redirectGroupFindings u c := by
        rw [List.filter_eq_self]
        intro f hf
        simpa using redirectGroupFindings_url f hf
      have h2 : ((rest.flatMap fun p => redirectGroupFindings p.1 p.2).filter
          (fun f => f.url = u)) = [] := by
        rw [List.filter_eq_nil_iff]
        intro f hf
        obtain ⟨p, hp, hfp⟩ := List.mem_flatMap.mp hf
        have hfu : f.url = p.1 := redirectGroupFindings_url f hfp
        have hne : p.1 ≠ u := by
          intro hc
          have hm : p.1 ∈ rest.map Prod.fst := List.mem_map_of_mem Prod.fst hp
          rw [hc] at hm
          exact hnd.1 hm
        simp [hfu, hne]
      rw [h1, h2, List.append_nil]
    · have hku : k ≠ u := by
        intro hc
        have hm : u ∈ rest.map Prod.fst := List.mem_map_of_mem Prod.fst hmem2
        rw [← hc] at hm
        exact hnd.1 hm
      have h1 : (redirectGroupFindings k v).filter (fun f => f.url = u) = [] := by
        rw [List.filter_eq_nil_iff]
        intro f hf
        have hfu := redirectGroupFindings_url f hf
        simp [hfu, hku]
      rw [h1, List.nil_append]
      exact ih hnd.2 hmem2

theorem redirectChains_nodup_fst (entries : List Entry) :
    ((redirectChains entries).map Prod.fst).Nodup := by
  unfold redirectChains
  apply foldl_invariant (P := fun l : List (String × List RedirectHop) => (l.map Prod.fst).Nodup)
  · intro b p hb
    dsimp only
    split
    · split
      · split
        · exact upsertApp_nodup_fst _ _ _ hb
        · exact hb
      · exact hb
    · exact hb
  · simp

/-- Claim C5: for every URL group of 3xx hops carrying a Location value, the
detector emits exactly one high loop finding with the full chain when the
chain is longer than three hops and some hop target equals the from URL of
an earlier hop; exactly one medium finding when the hop count lies in the
interval from two to three; and nothing otherwise, in particular nothing for
a single hop and nothing for a long chain without a revisit. -/
theorem claim_C5_redirect_findings (entries : List Entry) (u : String) (c : List RedirectHop)
    (hmem : (u, c) ∈ redirectChains entries) :
    ((3 < c.length ∧ revisits c) →
        (detect_redirect_loops entries).filter (fun f => f.url = u) =
          [{ type := "重定向循环", severity := "高", url := u, chain_length := c.length
             chain := c
             description := "检测到可能的重定向循环，重定向次数: " ++ toString c.length
             suggestion := "检查服务器重定向配置，避免循环重定向" }])
    ∧ ((1 < c.length ∧ c.length ≤ 3) →
        (detect_redirect_loops entries).filter (fun f => f.url = u) =
          [{ type := "频繁重定向", severity := "中", url := u, chain_length := c.length
             chain := c
             description := "检测到频繁重定向，重定向次数: " ++ toString c.length
             suggestion := "考虑优化重定向链，减少不必要的重定向" }])
    ∧ ((c.length ≤ 1 ∨ (3 < c.length ∧ ¬ revisits c)) →
        (detect_redirect_loops entries).filter (fun f => f.url = u) = []) := by
  have hbase : (detect_redirect_loops entries).filter (fun f => f.url = u)
      = redirectGroupFindings u c :=
    redirect_filter_group _ u c (redirectChains_nodup_fst entries) hmem
  refine ⟨?_, ?_, ?_⟩
  · rintro ⟨hlen, hrev⟩
    rw [hbase]
    unfold redirectGroupFindings
    rw [if_pos (by omega : c.length > 3), if_pos ((detectLoop_iff_revisits c).mpr hrev)]
  · rintro ⟨hlen1, hlen3⟩
    rw [hbase]
    unfold redirectGroupFindings
    rw [if_neg (by omega : ¬ c.length > 3), if_pos (by omega : c.length > 1)]
  · rintro (hlen | ⟨hlen, hrev⟩)
    · rw [hbase]
      unfold redirectGroupFindings
      rw [if_neg (by omega : ¬ c.length > 3), if_neg (by omega : ¬ c.length > 1)]
    · rw [hbase]
      unfold redirectGroupFindings
      rw [if_pos (by omega : c.length > 3),
        if_neg (fun hc => hrev ((detectLoop_iff_revisits c).mp hc))]

/-- Witness for claim C5, instantiated on a four-hop chain that revisits its
origin. -/
theorem claim_C5_witness :
    (("http://a/r", chainC5) ∈ redirectChains docC5)
    ∧ (3 < chainC5.length ∧ revisits chainC5)
    ∧ (detect_redirect_loops docC5).filter (fun f => f.url = "http://a/r") =
        [{ type := "重定向循环", severity := "高", url := "http://a/r"
           chain_length := chainC5.length
           chain := chainC5
           description := "检测到可能的重定向循环，重定向次数: " ++ toString chainC5.length
           suggestion := "检查服务器重定向配置，避免循环重定向" }] :=
  ⟨by decide, ⟨by decide, by decide⟩,
    (claim_C5_redirect_findings docC5 "http://a/r" chainC5 (by decide)).1 ⟨by decide, by decide⟩⟩

/-! ## Claim C6

After the correction: both the span and the divisor of the average interval
come from the successfully parsed start times, not from all occurrences of
the group; the finding count field still records all occurrences.  The
statement is guarded by dupNoMixed and dupHomog: on a candidate group that
mixes naive and offset-aware parsed times the source raises TypeError at
max(times), which lies outside its try/except, and produces no report at
all, so the detector's behaviour is only described where it has one. -/

/-- Claim C6, amended and restricted to the documents on which the source
detector returns (no candidate group mixing naive and offset-aware parsed
start times, as CPython raises TypeError when comparing the two): the
duplicate findings are sorted by occurrence count descending and are in
bijection with the groups; a homogeneous group yields no finding exactly
when it has at most three occurrences or fewer than two parseable start
times; and an emitted finding records all occurrences in its count, takes
its span between the earliest and latest parsed instants, divides that span
by the number of parsed times minus one, and derives its severity from that
average with the one and ten second thresholds. -/
theorem claim_C6_duplicates (entries : List Entry) (h : dupNoMixed entries = true) :
    (detect_duplicate_requests entries).Pairwise (fun a b => b.count ≤ a.count)
    ∧ List.Perm (detect_duplicate_requests entries)
        ((dupGroups entries).filterMap fun p => dupGroupFinding p.2)
    ∧ ∀ rs : List DupOccurrence, dupHomog rs = true →
        (dupGroupFinding rs = none ↔ rs.length ≤ 3 ∨ (dupParsedTimes rs).length < 2)
        ∧ ∀ f, dupGroupFinding rs = some f →
            3 < rs.length
            ∧ 2 ≤ (dupParsedTimes rs).length
            ∧ f.count = rs.length
            ∧ f.requests = rs
            ∧ (∃ tmin, tmin ∈ dupMicros rs
                ∧ ∃ tmax, tmax ∈ dupMicros rs
                ∧ (∀ x ∈ dupMicros rs, tmin ≤ x ∧ x ≤ tmax)
                ∧ f.time_span_seconds = ((tmax - tmin : ℤ) : ℚ) / 1000000
                ∧ f.avg_interval_seconds
                    = f.time_span_seconds / (((dupParsedTimes rs).length - 1 : ℕ) : ℚ))
            ∧ f.severity = (if f.avg_interval_seconds < 1 then "高"
                else if f.avg_interval_seconds < 10 then "中" else "低") := by
  refine ⟨?_, ?_, ?_⟩
  · have hp := pySorted_pairwise (fun (a b : DupFinding) => decide (b.count < a.count))
      (fun a b h => by
        simp only [decide_eq_true_eq] at h
        simp only [decide_eq_false_iff_not]
        omega)
      (fun a b c h1 h2 => by
        simp only [decide_eq_false_iff_not] at h1 h2 ⊢
        omega)
      ((dupGroups entries).filterMap fun p => dupGroupFinding p.2)
    refine List.Pairwise.imp ?_ hp
    intro a b h
    simp only [decide_eq_false_iff_not] at h
    omega
  · exact pySorted_perm _ _
  · intro rs hrs
    constructor
    · cases rs with
      | nil =>
        simp [dupGroupFinding]
      | cons r0 rest =>
        simp only [dupGroupFinding]
        constructor
        · intro h
          by_cases h3 : (r0 :: rest).length > 3
          · rw [if_pos h3] at h
            by_cases h2 : (dupParsedTimes (r0 :: rest)).length > 1
            · rw [if_pos h2] at h
              exact absurd h (by simp)
            · right
              omega
          · left
            omega
        · intro h
          rcases h with h | h
          · rw [if_neg (by omega : ¬ (r0 :: rest).length > 3)]
          · split
            · rw [if_neg (by omega : ¬ (dupParsedTimes (r0 :: rest)).length > 1)]
            · rfl
    · intro f hf
      cases rs with
      | nil => simp [dupGroupFinding] at hf
      | cons r0 rest =>
        simp only [dupGroupFinding] at hf
        by_cases h3 : (r0 :: rest).length > 3
        · rw [if_pos h3] at hf
          by_cases h2 : (dupParsedTimes (r0 :: rest)).length > 1
          · rw [if_pos h2] at hf
            have hfeq := (Option.some.inj hf).symm
            have hne : dupMicros (r0 :: rest) ≠ [] := by
              unfold dupMicros
              intro hc
              rw [List.map_eq_nil_iff] at hc
              rw [hc] at h2
              simp at h2
            refine ⟨h3, by omega, by rw [hfeq], by rw [hfeq], ?_, by rw [hfeq]⟩
            refine ⟨(dupMicros (r0 :: rest)).foldl min ((dupMicros (r0 :: rest)).headD 0), ?_,
              (dupMicros (r0 :: rest)).foldl max ((dupMicros (r0 :: rest)).headD 0),
              ?_, ?_, ?_, ?_⟩
            · rcases foldl_min_mem (dupMicros (r0 :: rest)) ((dupMicros (r0 :: rest)).headD 0)
                with h | h
              · rw [h]
                exact headD_mem hne 0
              · exact h
            · rcases foldl_max_mem (dupMicros (r0 :: rest)) ((dupMicros (r0 :: rest)).headD 0)
                with h | h
              · rw [h]
                exact headD_mem hne 0
              · exact h
            · intro x hx
              exact ⟨foldl_min_le_mem _ _ x hx, mem_le_foldl_max _ _ x hx⟩
            · rw [hfeq]
              rfl
            · rw [hfeq]
              rfl
          · rw [if_neg h2] at hf
            exact absurd hf (by simp)
        · rw [if_neg h3] at hf
          exact absurd hf (by simp)

set_option maxRecDepth 8000 in
theorem hgrpC6 : dupGroups docC6 = [("GET:http://a/x", grpC6)] := by decide

set_option maxRecDepth 8000 in
theorem hspanC6 : dupTimeSpan grpC6 = (10000000 : ℚ) / 1000000 := by
  unfold dupTimeSpan
  rw [show (dupMicros grpC6).foldl max ((dupMicros grpC6).headD 0) = 1704067210000000 by decide,
    show (dupMicros grpC6).foldl min ((dupMicros grpC6).headD 0) = 1704067200000000 by decide]
  norm_num

set_option maxRecDepth 8000 in
theorem havgC6 : dupAvgInterval grpC6 = 5 := by
  unfold dupAvgInterval
  rw [hspanC6, show (dupParsedTimes grpC6).length = 3 by decide]
  norm_num

set_option maxRecDepth 8000 in
theorem hfindC6 : (dupGroups docC6).filterMap (fun p => dupGroupFinding p.2)
    = [{ type := "重复请求"
         severity :=
           if dupAvgInterval grpC6 < 1 then "高"
           else if dupAvgInterval grpC6 < 10 then "中" else "低"
         url := "http://a/x", method := "GET", count := 4
         time_span := fmtFixed 1 (dupTimeSpan grpC6) ++ "秒"
         avg_interval := fmtFixed 1 (dupAvgInterval grpC6) ++ "秒"
         time_span_seconds := dupTimeSpan grpC6
         avg_interval_seconds := dupAvgInterval grpC6
         requests := grpC6
         description := "相同请求重复 " ++ toString grpC6.length ++ " 次，平均间隔 " ++
           fmtFixed 1 (dupAvgInterval grpC6) ++ " 秒"
         suggestion := "检查是否存在重复提交、轮询过频或缓存失效等问题" }] := by
  rw [hgrpC6]
  rfl

/-- Counterexample to claim C6 as stated: four occurrences of which one
start time does not parse and the parsed ones span ten seconds; the emitted
average interval is five seconds, the span divided by two (the parsed count
minus one), not the ten thirds the claim computes from the occurrence count
of four. -/
theorem claim_C6_counterexample :
    ((detect_duplicate_requests docC6).map DupFinding.count) = [4]
    ∧ ((detect_duplicate_requests docC6).map
        (fun f => f.avg_interval_seconds)) = [(5 : ℚ)]
    ∧ (dupParsedTimes grpC6).length = 3
    ∧ grpC6.length = 4
    ∧ (5 : ℚ) ≠ dupTimeSpan grpC6 / ((grpC6.length - 1 : ℕ) : ℚ) := by
  have hdet : detect_duplicate_requests docC6
      = pySorted (fun a b => decide (b.count < a.count))
          ((dupGroups docC6).filterMap fun p => dupGroupFinding p.2) := rfl
  rw [hdet, hfindC6]
  refine ⟨rfl, ?_, by decide, by decide, ?_⟩
  · show [dupAvgInterval grpC6] = [(5 : ℚ)]
    rw [havgC6]
  · rw [hspanC6, show (grpC6.length - 1 : ℕ) = 3 by decide]
    norm_num

set_option maxRecDepth 8000 in
/-- Witness for claim C6, discharging the homogeneity guards on concrete
inputs and exercising the no-finding direction on a group of three identical
occurrences, below the threshold of the detector. -/
theorem claim_C6_witness :
    dupNoMixed docC6 = true ∧ dupHomog grpW3 = true
    ∧ dupGroupFinding grpW3 = none ∧ grpW3.length ≤ 3 :=
  ⟨by decide, by decide,
    ((claim_C6_duplicates docC6 (by decide)).2.2 grpW3 (by decide)).1.mpr
      (Or.inl (by decide)),
    by decide⟩

/-! ## Claim C7

After the correction: the timeline is sorted by the rendered isoformat
string of the parsed time.  This coincides with chronological order whenever
all timestamps carry the same UTC offset, but not in general. -/

/-- Claim C7, amended: the timeline holds exactly the entries whose start
time parses (as the multiset of their original indices), those entries are
still counted in the summary total and all entries appear in the request
list, and the timeline is sorted ascending by the rendered time string of
each record. -/
theorem claim_C7_timeline (entries : List Entry) :
    List.Perm ((create_timeline entries).map TimelineRec.index)
      (entries.enum.filterMap fun p =>
        if (pyParseDT p.2.startedDateTime).isSome then some (p.1 + 1) else none)
    ∧ (create_timeline entries).Pairwise (fun a b => strLtB b.time a.time = false)
    ∧ (get_summary entries).total_requests = entries.length
    ∧ (analyze_requests entries).length = entries.length := by
  refine ⟨?_, ?_, rfl, by simp [analyze_requests]⟩
  · unfold create_timeline
    have hperm := (pySorted_perm (fun a b => strLtB a.time b.time)
      (entries.enum.filterMap fun p =>
        let st := p.2.startedDateTime
        if st ≠ "" then
          match pyParseDT st with
          | some dt =>
            some { index := p.1 + 1, time := isoformatStr dt, url := p.2.request.url
                   method := p.2.request.method, status := p.2.response.status
                   duration := p.2.time }
          | none => none
        else none)).map TimelineRec.index
    refine hperm.trans ?_
    rw [List.map_filterMap]
    apply List.Perm.of_eq
    apply List.filterMap_congr
    intro p hp
    by_cases hst : p.2.startedDateTime = ""
    · simp only [hst, ne_eq, not_true_eq_false, if_false, pyParseDT_empty]
      rfl
    · simp only [ne_eq, hst, not_false_iff, if_true]
      cases hdt : pyParseDT p.2.startedDateTime with
      | none => simp [hdt]
      | some dt => simp [hdt]
  · unfold create_timeline
    exact pySorted_pairwise (fun (a b : TimelineRec) => strLtB a.time b.time)
      (fun a b h => strLtB_asymm _ _ h)
      (fun a b c h1 h2 => strLtB_negtrans _ _ _ h1 h2)
      (entries.enum.filterMap fun p =>
        let st := p.2.startedDateTime
        if st ≠ "" then
          match pyParseDT st with
          | some dt =>
            some { index := p.1 + 1, time := isoformatStr dt, url := p.2.request.url
                   method := p.2.request.method, status := p.2.response.status
                   duration := p.2.time }
          | none => none
        else none)

set_option maxRecDepth 8000 in
/-- Counterexample to claim C7 as stated: both timestamps parse, entry one
is the earlier instant, yet the timeline lists entry two first, because the
sort key is the rendered string and the offsets differ. -/
theorem claim_C7_counterexample :
    ((create_timeline docC7).map TimelineRec.index) = [2, 1]
    ∧ (pyParseDT "2024-01-01T10:00:00+09:00").isSome = true
    ∧ (pyParseDT "2024-01-01T02:00:00+00:00").isSome = true
    ∧ ((pyParseDT "2024-01-01T10:00:00+09:00").map toMicro).getD 0
        < ((pyParseDT "2024-01-01T02:00:00+00:00").map toMicro).getD 0 := by
  refine ⟨by rfl, by rfl, by rfl, by decide⟩

/-! ## Claim C8

After the correction: the two body-preview functions use different JSON
tests.  The request post-data side requires the declared MIME type to be
exactly application/json, while the response content side only requires the
MIME type to start with application/json, so a response of type
application/json with parameters is still pretty-printed. -/

/-- Claim C8, amended: both previews follow the policy of pretty-printing
with two-space indentation truncated to 2000 characters with an ellipsis,
falling back to the raw text truncated to 1000 characters on parse failure
or for non-JSON types, and both retain the untruncated original text; the
JSON branch is selected by exact MIME equality for request post-data and by
the prefix test for response content. -/
theorem claim_C8_preview :
    (∀ p : PostData,
        ((format_post_data (some p)).map FormattedPostData.text)
            = some (previewPolicy (decide (p.mimeType = "application/json")) p.text)
        ∧ ((format_post_data (some p)).map FormattedPostData.full_content) = some p.text)
    ∧ (∀ c : Content,
        ((get_response_preview (some c)).map ResponsePreview.preview)
            = some (previewPolicy (pyStartsWith c.mimeType "application/json") c.text)
        ∧ ((get_response_preview (some c)).map ResponsePreview.full_content) = some c.text) := by
  constructor
  · intro p
    refine ⟨?_, rfl⟩
    rw [previewPolicy_decide]
    rfl
  · intro c
    refine ⟨?_, rfl⟩
    have hpp : previewPolicy (pyStartsWith c.mimeType "application/json") c.text
        = (if pyStartsWith c.mimeType "application/json" then
             if c.text ≠ "" then
               match json_loads c.text with
               | some j => truncEllipsis 2000 (json_dumps2 j)
               | none => if c.text ≠ "" then truncEllipsis 1000 c.text else ""
             else ""
           else if c.text ≠ "" then truncEllipsis 1000 c.text else "") := by
      unfold previewPolicy
      by_cases hs : pyStartsWith c.mimeType "application/json" = true
      · by_cases ht : c.text = ""
        · simp [hs, ht, truncEllipsis_empty]
        · simp [hs, ht]
      · rw [Bool.not_eq_true] at hs
        by_cases ht : c.text = ""
        · simp [hs, ht, truncEllipsis_empty]
        · simp [hs, ht]
    rw [hpp]
    rfl

set_option maxRecDepth 4000 in
/-- Counterexample to claim C8 as stated: a response whose MIME type merely
starts with application/json is pretty-printed, although the claim requires
the raw truncation for every MIME type other than application/json. -/
theorem claim_C8_counterexample :
    ((get_response_preview (some c8)).map ResponsePreview.preview) = some "[\n  1,\n  2\n]"
    ∧ c8.mimeType ≠ "application/json"
    ∧ truncEllipsis 1000 c8.text = "[1, 2]"
    ∧ "[\n  1,\n  2\n]" ≠ "[1, 2]" := by
  refine ⟨by rfl, by decide, by rfl, by decide⟩

/-! ## Claim C9

After the correction: an entry contributes a suspicious User-Agent finding
only when a user-agent header is present and its value is empty or shorter
than 20 characters.  An entry with no user-agent header at all is never
flagged. -/

theorem filter_secType_nil (t : String) (l : List SecFinding)
    (h : ∀ f ∈ l, f.type ≠ t) : l.filter (fun f => f.type = t) = [] := by
  rw [List.filter_eq_nil_iff]
  intro f hf
  simpa using h f hf

theorem filter_secType_self (t : String) (l : List SecFinding)
    (h : ∀ f ∈ l, f.type = t) : l.filter (fun f => f.type = t) = l := by
  rw [List.filter_eq_self]
  intro f hf
  simpa using h f hf

theorem uaOffendersSpec_eq (entries : List Entry) :
    uaOffendersSpec entries
      = entries.enum.filterMap fun p =>
          match findHeader "user-agent" p.2.request.headers with
          | some h =>
            if h.value = "" ∨ h.value.length < 20 then
              some { index := p.1 + 1, url := p.2.request.url
                     user_agent := if h.value = "" then "空" else h.value }
            else none
          | none => none := rfl

/-- Claim C9, amended: the suspicious User-Agent findings consist of one
low-severity finding exactly when some entry carries a user-agent header
whose value is empty or shorter than 20 characters; entries without a
user-agent header are not flagged.  The finding reports the offender count
and the first five offenders, rendering an empty value as 空. -/
theorem claim_C9_user_agent (entries : List Entry) :
    (detect_security_concerns entries).filter (fun f => f.type = "可疑User-Agent") =
      (if uaOffendersSpec entries = [] then []
       else
         [{ type := "可疑User-Agent", severity := "低"
            description := "检测到 " ++ toString (uaOffendersSpec entries).length ++
              " 个可疑的User-Agent"
            ua_requests := (uaOffendersSpec entries).take 5
            total_count := some (uaOffendersSpec entries).length
            suggestion := "检查客户端配置，确保User-Agent信息正确设置" }]) := by
  unfold detect_security_concerns
  rw [← uaOffendersSpec_eq]
  rw [List.filter_append, List.filter_append]
  rw [filter_secType_nil _ _ ?h1, filter_secType_nil _ _ ?h2, filter_secType_self _ _ ?h3]
  case h1 =>
    intro f hf
    revert hf
    split
    · intro hf
      rw [List.mem_singleton.mp hf]
      show ("不安全HTTP连接" : String) ≠ "可疑User-Agent"
      decide
    · intro hf
      exact absurd hf (List.not_mem_nil f)
  case h2 =>
    intro f hf
    revert hf
    split
    · intro hf
      rw [List.mem_singleton.mp hf]
      show ("频繁认证失败" : String) ≠ "可疑User-Agent"
      decide
    · intro hf
      exact absurd hf (List.not_mem_nil f)
  case h3 =>
    intro f hf
    revert hf
    split
    · intro hf
      rw [List.mem_singleton.mp hf]
    · intro hf
      exact absurd hf (List.not_mem_nil f)
  · by_cases h : uaOffendersSpec entries = []
    · simp [h]
    · simp [h]

/-- Counterexample to claim C9 as stated: an entry with no user-agent
header produces no security finding at all, although the claim flags every
entry whose user-agent is missing. -/
theorem claim_C9_counterexample :
    detect_security_concerns [eNoUA] = []
    ∧ findHeader "user-agent" eNoUA.request.headers = none := ⟨rfl, rfl⟩

/-! ## Claim C10

Confirmed: the content type of a response is the text before the first
semicolon of its content-type header, matched case-insensitively on the
header name, with 其他 as the fallback, and the per-type counts of the file
type report agree with counting entries directly. -/

/-- Claim C10: get_content_type agrees with the specification reading of
the claim, it strips MIME parameters after the first semicolon, and for
every document and every type string the count recorded in the file type
statistics equals the number of entries whose response has that content
type. -/
theorem claim_C10_content_type :
    (∀ r : Response, get_content_type r = contentTypeSpec r)
    ∧ get_content_type
        { headers := [{ name := "Content-Type", value := "text/html; charset=utf-8" }] }
          = "text/html"
    ∧ ∀ (entries : List Entry) (t : String),
        (match (analyze_file_types entries).find? (fun g => g.type = t) with
         | some g => g.count
         | none => 0)
          = entries.countP (fun e => get_content_type e.response = t) := by
  refine ⟨?_, by rfl, ?_⟩
  · intro r
    unfold get_content_type contentTypeSpec
    rw [findHeader_eq_find?]
    rfl
  · intro entries t
    have hnodup : ((fileTypeFold entries).map Prod.fst).Nodup := by
      have hinv := foldl_invariant
        (fun a e => dictUpdate (get_content_type e.response) ((0 : Nat), (0 : ℤ))
          (fun s => (s.1 + 1, s.2 + contentSize e)) a)
        (fun b x hb => dictUpdate_nodup_fst _ _ _ b hb) entries [] (by simp)
      exact hinv
    have hcount : ftCountAt (fileTypeFold entries) t
        = entries.countP (fun e => get_content_type e.response = t) := by
      have := fileTypeFold_countAt t entries []
      simpa [ftCountAt] using this
    set F : String × (Nat × ℤ) → FileTypeStat := fun p =>
      { type := p.1
        count := p.2.1
        total_size := format_size (p.2.2 : ℚ)
        avg_size := if p.2.1 > 0 then format_size ((p.2.2 : ℚ) / p.2.1) else "0B"
        percentage :=
          if entries.length > 0 then
            fmtFixed 1 ((p.2.1 : ℚ) / entries.length * 100) ++ "%"
          else "0%" } with hF
    have hform : analyze_file_types entries
        = pySorted (fun a b => decide (b.count < a.count)) ((fileTypeFold entries).map F) := rfl
    have hmapfind : ((fileTypeFold entries).map F).find? (fun g => g.type = t)
        = ((fileTypeFold entries).find? (fun p => p.1 = t)).map F := by
      rw [List.find?_map]
      rfl
    have huniq : ∀ x ∈ (fileTypeFold entries).map F, ∀ y ∈ (fileTypeFold entries).map F,
        decide (x.type = t) = true → decide (y.type = t) = true → x = y := by
      intro x hx y hy hxt hyt
      simp only [decide_eq_true_eq] at hxt hyt
      obtain ⟨px, hpx, rfl⟩ := List.mem_map.mp hx
      obtain ⟨py, hpy, rfl⟩ := List.mem_map.mp hy
      have hfst : px.1 = py.1 := by
        have h1 : (F px).type = px.1 := rfl
        have h2 : (F py).type = py.1 := rfl
        rw [h1] at hxt
        rw [h2] at hyt
        rw [hxt, hyt]
      have := List.inj_on_of_nodup_map (f := Prod.fst) hnodup hpx hpy hfst
      rw [this]
    have hperm := pySorted_perm (fun (a b : FileTypeStat) => decide (b.count < a.count))
      ((fileTypeFold entries).map F)
    have hx : (pySorted (fun (a b : FileTypeStat) => decide (b.count < a.count))
          ((fileTypeFold entries).map F)).find? (fun g => g.type = t)
        = ((fileTypeFold entries).find? (fun p => p.1 = t)).map F := by
      rw [← hmapfind]
      exact (find?_eq_of_perm_of_unique hperm.symm _ huniq).symm
    rw [hform, hx, ← hcount]
    unfold ftCountAt
    cases (fileTypeFold entries).find? (fun p => p.1 = t) with
    | none => rfl
    | some p => rfl

end Har
